import Mathlib

/-!
Verification of the Guacamole connection provisioner
(`dockerfiles/guacamole-provisioner/provision_connections.py`).

The reconciliation engine is embedded shallowly:

* the relational store is an explicit `DB` state (tables as lists of rows,
  with the serial counters for generated identifiers);
* one psycopg2 connection with an open transaction is a `Txn`: the durable
  state at transaction start (`base`), the current uncommitted state
  (`cur`), and the PostgreSQL aborted-transaction flag (`failed`).  A
  failed SQL statement aborts the transaction; every later statement in
  the same transaction raises (InFailedSqlTransaction); committing an
  aborted transaction rolls it back (the server answers COMMIT with
  ROLLBACK and psycopg2 raises nothing).  Statement failures are injected
  by an oracle indexed by the statement counter `opIdx`;
* every Python function of the reconciler becomes a Lean function of the
  same name, one `exec` per SQL statement issued (an `execute_batch` call
  is one statement);
* YAML scalar values are `PVal` (string / int / bool), with Python
  `str()` as `PVal.pyStr` and Python `==` against a stored string as
  `pyValEqStr`; Python dicts are association lists with Python dict
  equality `pyDictEq` (order-insensitive key/value equality).
-/

/-- Scalar value as it comes out of the YAML definition document. -/
inductive PVal where
  | s (v : String)
  | i (n : Int)
  | b (v : Bool)
deriving DecidableEq

/-- Python `str(value)` for a YAML scalar. -/
def PVal.pyStr : PVal → String
  | .s v => v
  | .i n => toString n
  | .b v => if v then "True" else "False"

/-- Python `==` between a stored parameter value (a string read back from
the `guacamole_connection_parameter` table) and an uncoerced definition
value: a Python `str` equals an `int` or `bool` never, and another `str`
iff they are the same string. -/
def pyValEqStr (v : PVal) (stored : String) : Bool :=
  match v with
  | .s t => t == stored
  | .i _ => false
  | .b _ => false

/-- Lookup in an association list (Python `dict.get`). -/
def alookup {α : Type} (k : String) : List (String × α) → Option α
  | [] => none
  | (k2, v) :: rest => if k = k2 then some v else alookup k rest

/-- Update/insert in an association list (Python `dict[k] = v`: replaces
in place, appends at the end when the key is new). -/
def aset {α : Type} (k : String) (v : α) : List (String × α) → List (String × α)
  | [] => [(k, v)]
  | (k2, w) :: rest => if k = k2 then (k, v) :: rest else (k2, w) :: aset k v rest

/-- Python `==` between the stored parameter dict (string values) and the
definition parameter dict (uncoerced values): equal key sets, and the
value at every common key equal under `pyValEqStr`. -/
def pyDictEq (stored : List (String × String)) (fresh : List (String × PVal)) : Bool :=
  (stored.all fun p =>
    match alookup p.1 fresh with
    | some v => pyValEqStr v p.2
    | none => false)
  && (fresh.all fun p => (alookup p.1 stored).isSome)

/-- Row of `guacamole_entity`. -/
structure Entity where
  entity_id : Nat
  name : String
  type : String
deriving DecidableEq

/-- Row of `guacamole_connection`. -/
structure ConnRow where
  connection_id : Nat
  connection_name : String
  protocol : String
deriving DecidableEq

/-- Row of `guacamole_connection_parameter`. -/
structure ParamRow where
  connection_id : Nat
  parameter_name : String
  parameter_value : String
deriving DecidableEq

/-- Row of `guacamole_connection_permission`. -/
structure PermRow where
  entity_id : Nat
  connection_id : Nat
  permission : String
deriving DecidableEq

/-- The relational store: the four tables the provisioner touches plus the
serial counters that generate `entity_id` / `connection_id`. -/
structure DB where
  entities : List Entity
  connections : List ConnRow
  parameters : List ParamRow
  permissions : List PermRow
  nextEntityId : Nat
  nextConnId : Nat
deriving DecidableEq

/-- A parsed `connection.yaml` document (`conn_data` in the source).
`none` fields model an absent key. -/
structure ConnData where
  name : String
  protocol : String
  parameters : Option (List (String × PVal))
  users : Option (List String)
  permissions : Option (List String)
deriving DecidableEq

/-- SELECT connection_id FROM guacamole_connection WHERE connection_name = %s. -/
def selectConnId (name : String) (db : DB) : Option Nat :=
  (db.connections.find? fun r => r.connection_name == name).map (·.connection_id)

/-- SELECT connection_id, protocol FROM guacamole_connection WHERE connection_name = %s. -/
def selectConnRow (name : String) (db : DB) : Option ConnRow :=
  db.connections.find? fun r => r.connection_name == name

/-- SELECT parameter_name, parameter_value FROM guacamole_connection_parameter
WHERE connection_id = %s (the ORDER BY only fixes an order inside a dict
construction, which Python dict equality is insensitive to). -/
def paramsOf (cid : Nat) (db : DB) : List (String × String) :=
  (db.parameters.filter fun p => p.connection_id == cid).map
    fun p => (p.parameter_name, p.parameter_value)

/-- INSERT INTO guacamole_connection (connection_name, protocol) VALUES (%s,%s)
RETURNING connection_id. -/
def insertConn (name protocol : String) (db : DB) : Nat × DB :=
  (db.nextConnId,
   { db with
      connections := db.connections ++ [⟨db.nextConnId, name, protocol⟩]
      nextConnId := db.nextConnId + 1 })

/-- DELETE FROM guacamole_connection_parameter WHERE connection_id = %s. -/
def deleteParams (cid : Nat) (db : DB) : Unit × DB :=
  ((), { db with parameters := db.parameters.filter fun p => !(p.connection_id == cid) })

/-- The batched INSERT INTO guacamole_connection_parameter. -/
def insertParamRows (rows : List ParamRow) (db : DB) : Unit × DB :=
  ((), { db with parameters := db.parameters ++ rows })

/-- INSERT INTO guacamole_entity (name, type) VALUES (%s,'USER')
ON CONFLICT (name, type) DO UPDATE SET name = EXCLUDED.name
RETURNING entity_id. -/
def upsertEntity (username : String) (db : DB) : Nat × DB :=
  match db.entities.find? (fun e => e.name == username && e.type == "USER") with
  | some e => (e.entity_id, db)
  | none =>
      (db.nextEntityId,
       { db with
          entities := db.entities ++ [⟨db.nextEntityId, username, "USER"⟩]
          nextEntityId := db.nextEntityId + 1 })

/-- The batched INSERT INTO guacamole_connection_permission ... ON CONFLICT
DO NOTHING: rows are inserted in order, each skipped when already present. -/
def insertPermRows (rows : List PermRow) (db : DB) : Unit × DB :=
  ((), { db with
          permissions := rows.foldl
            (fun acc r => if r ∈ acc then acc else acc ++ [r]) db.permissions })

/-- Errors a statement execution can raise: a failure of the statement
itself, or PostgreSQL refusing any statement inside an already aborted
transaction (psycopg2 InFailedSqlTransaction). -/
inductive DBErr where
  | stmtError
  | inFailed
deriving DecidableEq

/-- One pooled psycopg2 connection with its open transaction: `base` is
the durable store at transaction start, `cur` the uncommitted state,
`failed` the aborted-transaction flag, `opIdx` the statement counter
(feeding the failure oracle) and `writes` the number of executed write
statements. -/
structure Txn where
  base : DB
  cur : DB
  failed : Bool
  opIdx : Nat
  writes : Nat
deriving DecidableEq

/-- Execute one SQL statement: raises immediately inside an aborted
transaction; otherwise fails (and aborts the transaction) when the oracle
says so, else applies the statement to the uncommitted state. -/
def exec {α : Type} (isWrite : Bool) (f : DB → α × DB) (oracle : Nat → Bool)
    (t : Txn) : Except DBErr α × Txn :=
  if t.failed then (Except.error DBErr.inFailed, t)
  else if oracle t.opIdx then
    (Except.error DBErr.stmtError, { t with failed := true, opIdx := t.opIdx + 1 })
  else
    (Except.ok (f t.cur).1,
     { t with cur := (f t.cur).2, opIdx := t.opIdx + 1,
              writes := t.writes + (if isWrite then 1 else 0) })

/-- conn.commit(): committing an aborted transaction rolls it back
(PostgreSQL answers COMMIT with ROLLBACK), otherwise the uncommitted
state becomes durable. -/
def commitTxn (t : Txn) : DB :=
  if t.failed then t.base else t.cur

/-- get_or_create_entity: one upsert statement returning the entity id. -/
def get_or_create_entity (oracle : Nat → Bool) (username : String) (t : Txn) :
    Except DBErr Nat × Txn :=
  exec true (upsertEntity username) oracle t

/-- batch_insert_parameters: `if not parameters: return`, else delete the
connection's parameter rows and batch-insert the new set with values
coerced through Python `str()`. -/
def batch_insert_parameters (oracle : Nat → Bool) (cid : Nat)
    (ps : List (String × PVal)) (t : Txn) : Except DBErr Unit × Txn :=
  if ps.isEmpty then (Except.ok (), t)
  else
    match exec true (deleteParams cid) oracle t with
    | (Except.error e, t1) => (Except.error e, t1)
    | (Except.ok _, t1) =>
        exec true (insertParamRows (ps.map fun p => ParamRow.mk cid p.1 p.2.pyStr)) oracle t1

/-- The entity-gathering loop of batch_insert_permissions: build the
`entity_ids` dict, keeping an entry only when the returned id is truthy. -/
def gatherEntities (oracle : Nat → Bool) (users : List String)
    (acc : List (String × Nat)) (t : Txn) : Except DBErr (List (String × Nat)) × Txn :=
  match users with
  | [] => (Except.ok acc, t)
  | u :: rest =>
      match get_or_create_entity oracle u t with
      | (Except.error e, t1) => (Except.error e, t1)
      | (Except.ok eid, t1) =>
          gatherEntities oracle rest (if eid ≠ 0 then aset u eid acc else acc) t1

/-- batch_insert_permissions: `if not users: return`, else gather entity
ids, build one row per (user, permission) pair and batch-insert them with
ON CONFLICT DO NOTHING. -/
def batch_insert_permissions (oracle : Nat → Bool) (cid : Nat)
    (users perms : List String) (t : Txn) : Except DBErr Unit × Txn :=
  if users.isEmpty then (Except.ok (), t)
  else
    match gatherEntities oracle users [] t with
    | (Except.error e, t1) => (Except.error e, t1)
    | (Except.ok entityIds, t1) =>
        let values := entityIds.foldl
          (fun acc p => acc ++ perms.map fun perm => PermRow.mk p.2 cid perm) []
        if values.isEmpty then (Except.ok (), t1)
        else exec true (insertPermRows values) oracle t1

/-- The connection state read back for comparison (get_connection_state). -/
structure ConnState where
  id : Nat
  protocol : String
  parameters : List (String × String)
deriving DecidableEq

/-- get_connection_state: select the connection row by name; when present,
also select its parameter rows. -/
def get_connection_state (oracle : Nat → Bool) (name : String) (t : Txn) :
    Except DBErr (Option ConnState) × Txn :=
  match exec false (fun db => (selectConnRow name db, db)) oracle t with
  | (Except.error e, t1) => (Except.error e, t1)
  | (Except.ok none, t1) => (Except.ok none, t1)
  | (Except.ok (some row), t1) =>
      match exec false (fun db => (paramsOf row.connection_id db, db)) oracle t1 with
      | (Except.error e, t2) => (Except.error e, t2)
      | (Except.ok ps, t2) =>
          (Except.ok (some ⟨row.connection_id, row.protocol, ps⟩), t2)

/-- The tail of create_or_update_connection shared by the create and the
update path: the parameter block guarded by `'parameters' in conn_data`,
then the permission block guarded by `'users' in conn_data` with the
`['READ']` default for an absent `permissions` key. -/
def applyWrites (oracle : Nat → Bool) (d : ConnData) (cid : Nat) (t : Txn) :
    Except DBErr Nat × Txn :=
  match
    (match d.parameters with
     | none => (Except.ok (), t)
     | some ps => batch_insert_parameters oracle cid ps t) with
  | (Except.error e, t1) => (Except.error e, t1)
  | (Except.ok _, t1) =>
      match d.users with
      | none => (Except.ok cid, t1)
      | some us =>
          match batch_insert_permissions oracle cid us (d.permissions.getD ["READ"]) t1 with
          | (Except.error e, t2) => (Except.error e, t2)
          | (Except.ok _, t2) => (Except.ok cid, t2)

/-- create_or_update_connection: look the name up; when present, read the
current state back and skip everything when the stored parameter dict
equals the definition's (with a missing `parameters` key read as `{}`);
otherwise fall through to the shared write tail, inserting the connection
row first on the create path. -/
def create_or_update_connection (oracle : Nat → Bool) (d : ConnData) (t : Txn) :
    Except DBErr Nat × Txn :=
  match exec false (fun db => (selectConnId d.name db, db)) oracle t with
  | (Except.error e, t1) => (Except.error e, t1)
  | (Except.ok (some cid), t1) =>
      match get_connection_state oracle d.name t1 with
      | (Except.error e, t2) => (Except.error e, t2)
      | (Except.ok stOpt, t2) =>
          match stOpt with
          | some st =>
              if pyDictEq st.parameters (d.parameters.getD []) then (Except.ok cid, t2)
              else applyWrites oracle d cid t2
          | none => applyWrites oracle d cid t2
  | (Except.ok none, t1) =>
      match exec true (insertConn d.name d.protocol) oracle t1 with
      | (Except.error e, t2) => (Except.error e, t2)
      | (Except.ok cid, t2) => applyWrites oracle d cid t2

/-- One definition-source file as the cycle sees it: its glob path, its raw
content (`none` when unreadable, so hashing fails) and its parse result
(`none` when yaml.safe_load raises or yields a falsy document). -/
structure SrcFile where
  path : String
  content : Option String
  parsed : Option ConnData
deriving DecidableEq

/-- Process-wide state a cycle starts from: the globbed files, the
fingerprint cache `state_cache` and the durable store. -/
structure World where
  files : List SrcFile
  cache : List (String × String)
  db : DB
deriving DecidableEq

/-- One iteration of the change-detection loop: skip a file whose hash is
falsy (unreadable gives None, and an empty digest is falsy too); flag a
change and refresh the cache entry when the hash differs from the cached
one or the path is new. -/
def detectStep (H : String → String) (acc : Bool × List (String × String))
    (f : SrcFile) : Bool × List (String × String) :=
  match f.content with
  | none => acc
  | some c =>
      let h := H c
      if h = "" then acc
      else if alookup f.path acc.2 = some h then acc
      else (true, aset f.path h acc.2)

/-- The per-definition loop of process_connections: each
create_or_update_connection call is wrapped in its own try/except, a
success bumps `updated_count`, a caught exception only bumps the error
tally and the loop continues. -/
def runDefs (oracle : Nat → Bool) (defs : List ConnData) (t : Txn)
    (count errs : Nat) : Nat × Nat × Txn :=
  match defs with
  | [] => (count, errs, t)
  | d :: rest =>
      match create_or_update_connection oracle d t with
      | (Except.ok _, t1) => runDefs oracle rest t1 (count + 1) errs
      | (Except.error _, t1) => runDefs oracle rest t1 count (errs + 1)

/-- The observables of one process_connections call: the returned count,
the fingerprint cache and durable store afterwards, whether a pooled
session was requested, the number of caught per-definition exceptions,
and the statement / write-statement counters of the transaction. -/
structure CycleResult where
  count : Nat
  cache : List (String × String)
  db : DB
  acquireAttempted : Bool
  errors : Nat
  dbOps : Nat
  dbWrites : Nat
deriving DecidableEq

/-- process_connections: return early when no files are found, when no
change is detected, or when no file parses to a truthy document — all
before any session is requested.  Otherwise lease a session (a failing
lease is caught by the outer except with nothing to roll back), run every
definition inside the single transaction with per-definition exception
handling, and commit. -/
def process_connections (H : String → String) (oracle : Nat → Bool)
    (acquireFails : Bool) (w : World) : CycleResult :=
  if w.files.isEmpty then ⟨0, w.cache, w.db, false, 0, 0, 0⟩
  else
    let det := w.files.foldl (detectStep H) (false, w.cache)
    if !det.1 then ⟨0, det.2, w.db, false, 0, 0, 0⟩
    else
      let conns := w.files.filterMap (·.parsed)
      if conns.isEmpty then ⟨0, det.2, w.db, false, 0, 0, 0⟩
      else if acquireFails then ⟨0, det.2, w.db, true, 0, 0, 0⟩
      else
        let t0 : Txn := ⟨w.db, w.db, false, 0, 0⟩
        let r := runDefs oracle conns t0 0 0
        ⟨r.1, det.2, commitTxn r.2.2, true, r.2.1, r.2.2.opIdx, r.2.2.writes⟩

/-- Whether the second character list starts with the first. -/
def charsStart : List Char → List Char → Bool
  | [], _ => true
  | _ :: _, [] => false
  | a :: as, b :: bs => a == b && charsStart as bs

/-- Python substring containment (`needle in hay`) on character lists. -/
def charsContain (needle : List Char) : List Char → Bool
  | [] => needle.isEmpty
  | c :: rest => charsStart needle (c :: rest) || charsContain needle rest

/-- Python `line.split(sep, 1)[1]` for sep `:` — the text after the first
colon, `none` when the line has no colon. -/
def afterFirstColon : List Char → Option (List Char)
  | [] => none
  | c :: rest => if c = ':' then some rest else afterFirstColon rest

/-- The whitespace set of Python str.strip. -/
def isPySpace (c : Char) : Bool :=
  c == ' ' || c == '\t' || c == '\n' || c == '\r' || c == '\x0b' || c == '\x0c'

/-- Python str.strip on a character list. -/
def stripChars (l : List Char) : List Char :=
  ((l.dropWhile isPySpace).reverse.dropWhile isPySpace).reverse

/-- get_db_password: fail when the properties file is missing, else return
the text after the first colon of the first line containing the substring
postgresql-password: (stripped), failing when no line matches.  A matched
line always contains a colon, so the colon-free fallback is unreachable. -/
def get_db_password (secrets : Option (List String)) : Except String String :=
  match secrets with
  | none => Except.error "Properties file not found"
  | some lines =>
      match lines.find? (fun l => charsContain "postgresql-password:".data l.data) with
      | some l =>
          match afterFirstColon l.data with
          | some rest => Except.ok (String.mk (stripChars rest))
          | none => Except.ok ""
      | none => Except.error "postgresql-password not found in guacamole.properties"

/-- init_connection_pool during startup (the pool is still unset): read the
password — its exception propagates — then create the pool, which the
per-attempt flag may fail. -/
def init_connection_pool (secrets : Option (List String)) (poolOk : Bool) :
    Except String Unit :=
  match get_db_password secrets with
  | Except.error e => Except.error e
  | Except.ok _ => if poolOk then Except.ok () else Except.error "pool"

/-- The retry loop of wait_for_guacamole: `fuel` attempts remain, `i` is
the index of the next attempt; any exception is caught and the next
attempt made, success returns True, exhaustion returns False. -/
def wfgLoop (attempt : Nat → Except String Unit) : Nat → Nat → Bool
  | 0, _ => false
  | fuel + 1, i =>
      match attempt i with
      | Except.ok _ => true
      | Except.error _ => wfgLoop attempt fuel (i + 1)

/-- wait_for_guacamole: max_retries = 10 initialization attempts. -/
def wait_for_guacamole (secrets : Option (List String)) (poolOk : Nat → Bool) : Bool :=
  wfgLoop (fun i => init_connection_pool secrets (poolOk i)) 10 0

/-- The startup gate of main: `some 1` models sys.exit(1) fired before the
initial provisioning and the main loop, `none` models falling through
into them. -/
def main_startup (secrets : Option (List String)) (poolOk : Nat → Bool) : Option Nat :=
  if wait_for_guacamole secrets poolOk then none else some 1

/-- Discriminator for a raised statement error. -/
def isErr {α : Type} : Except DBErr α → Bool
  | Except.error _ => true
  | Except.ok _ => false

theorem exec_eq_of_failed {α : Type} {wr : Bool} {f : DB → α × DB} {o : Nat → Bool}
    {t : Txn} (hf : t.failed = true) :
    exec wr f o t = (Except.error DBErr.inFailed, t) := by
  unfold exec; simp [hf]

theorem exec_eq_of_oracle {α : Type} {wr : Bool} {f : DB → α × DB} {o : Nat → Bool}
    {t : Txn} (hf : t.failed = false) (ho : o t.opIdx = true) :
    exec wr f o t
      = (Except.error DBErr.stmtError, { t with failed := true, opIdx := t.opIdx + 1 }) := by
  unfold exec; simp [hf, ho]

theorem exec_eq_of_ok {α : Type} {wr : Bool} {f : DB → α × DB} {o : Nat → Bool}
    {t : Txn} (hf : t.failed = false) (ho : o t.opIdx = false) :
    exec wr f o t
      = (Except.ok (f t.cur).1,
         { t with cur := (f t.cur).2, opIdx := t.opIdx + 1,
                  writes := t.writes + (if wr then 1 else 0) }) := by
  unfold exec; simp [hf, ho]

theorem exec_cases {α : Type} (wr : Bool) (f : DB → α × DB) (o : Nat → Bool) (t : Txn) :
    (t.failed = true ∧ exec wr f o t = (Except.error DBErr.inFailed, t)) ∨
    (t.failed = false ∧ o t.opIdx = true ∧
      exec wr f o t
        = (Except.error DBErr.stmtError, { t with failed := true, opIdx := t.opIdx + 1 })) ∨
    (t.failed = false ∧ o t.opIdx = false ∧
      exec wr f o t
        = (Except.ok (f t.cur).1,
           { t with cur := (f t.cur).2, opIdx := t.opIdx + 1,
                    writes := t.writes + (if wr then 1 else 0) })) := by
  cases hf : t.failed with
  | true => exact Or.inl ⟨rfl, exec_eq_of_failed hf⟩
  | false =>
      cases ho : o t.opIdx with
      | true => exact Or.inr (Or.inl ⟨rfl, rfl, exec_eq_of_oracle hf ho⟩)
      | false =>
          refine Or.inr (Or.inr ⟨rfl, rfl, ?_⟩)
          rw [exec_eq_of_ok hf ho, hf]

theorem exec_failed {α : Type} (wr : Bool) (f : DB → α × DB) (o : Nat → Bool) (t : Txn) :
    ((exec wr f o t).2).failed = (t.failed || isErr (exec wr f o t).1) := by
  rcases exec_cases wr f o t with ⟨hf, he⟩ | ⟨hf, ho, he⟩ | ⟨hf, ho, he⟩ <;>
    rw [he] <;> simp [isErr, hf]

theorem exec_base {α : Type} (wr : Bool) (f : DB → α × DB) (o : Nat → Bool) (t : Txn) :
    ((exec wr f o t).2).base = t.base := by
  rcases exec_cases wr f o t with ⟨hf, he⟩ | ⟨hf, ho, he⟩ | ⟨hf, ho, he⟩ <;>
    rw [he]

theorem get_or_create_entity_failed (o : Nat → Bool) (u : String) (t : Txn) :
    ((get_or_create_entity o u t).2).failed
      = (t.failed || isErr (get_or_create_entity o u t).1) :=
  exec_failed true (upsertEntity u) o t

theorem get_or_create_entity_base (o : Nat → Bool) (u : String) (t : Txn) :
    ((get_or_create_entity o u t).2).base = t.base :=
  exec_base true (upsertEntity u) o t

theorem batch_insert_parameters_failed (o : Nat → Bool) (cid : Nat)
    (ps : List (String × PVal)) (t : Txn) :
    ((batch_insert_parameters o cid ps t).2).failed
      = (t.failed || isErr (batch_insert_parameters o cid ps t).1) := by
  unfold batch_insert_parameters
  by_cases hps : ps.isEmpty
  · simp [hps, isErr]
  · simp only [hps, if_false, Bool.false_eq_true]
    rcases hd : exec true (deleteParams cid) o t with ⟨res, t1⟩
    have h1 := exec_failed true (deleteParams cid) o t
    rw [hd] at h1
    cases res with
    | error e => simpa [isErr] using h1
    | ok a =>
        simp only
        simp only [isErr] at h1
        rw [Bool.or_false] at h1
        have h2 := exec_failed true
          (insertParamRows (ps.map fun p => ParamRow.mk cid p.1 p.2.pyStr)) o t1
        rw [h1] at h2
        exact h2

theorem batch_insert_parameters_base (o : Nat → Bool) (cid : Nat)
    (ps : List (String × PVal)) (t : Txn) :
    ((batch_insert_parameters o cid ps t).2).base = t.base := by
  unfold batch_insert_parameters
  by_cases hps : ps.isEmpty
  · simp [hps]
  · simp only [hps, if_false, Bool.false_eq_true]
    rcases hd : exec true (deleteParams cid) o t with ⟨res, t1⟩
    have h1 := exec_base true (deleteParams cid) o t
    rw [hd] at h1
    cases res with
    | error e => simpa using h1
    | ok a =>
        simp only
        rw [exec_base true (insertParamRows (ps.map fun p => ParamRow.mk cid p.1 p.2.pyStr)) o t1]
        exact h1

theorem gatherEntities_failed (o : Nat → Bool) (users : List String)
    (acc : List (String × Nat)) (t : Txn) :
    ((gatherEntities o users acc t).2).failed
      = (t.failed || isErr (gatherEntities o users acc t).1) := by
  induction users generalizing acc t with
  | nil => simp [gatherEntities, isErr]
  | cons u rest ih =>
      unfold gatherEntities
      rcases hg : get_or_create_entity o u t with ⟨res, t1⟩
      have h1 := get_or_create_entity_failed o u t
      rw [hg] at h1
      cases res with
      | error e => simpa [isErr] using h1
      | ok eid =>
          simp only
          simp only [isErr] at h1
          rw [Bool.or_false] at h1
          rw [ih, h1]

theorem gatherEntities_base (o : Nat → Bool) (users : List String)
    (acc : List (String × Nat)) (t : Txn) :
    ((gatherEntities o users acc t).2).base = t.base := by
  induction users generalizing acc t with
  | nil => simp [gatherEntities]
  | cons u rest ih =>
      unfold gatherEntities
      rcases hg : get_or_create_entity o u t with ⟨res, t1⟩
      have h1 := get_or_create_entity_base o u t
      rw [hg] at h1
      cases res with
      | error e => simpa using h1
      | ok eid => simp only; rw [ih, h1]

theorem batch_insert_permissions_failed (o : Nat → Bool) (cid : Nat)
    (users perms : List String) (t : Txn) :
    ((batch_insert_permissions o cid users perms t).2).failed
      = (t.failed || isErr (batch_insert_permissions o cid users perms t).1) := by
  unfold batch_insert_permissions
  by_cases hu : users.isEmpty
  · simp [hu, isErr]
  · simp only [hu, if_false, Bool.false_eq_true]
    rcases hg : gatherEntities o users [] t with ⟨res, t1⟩
    have h1 := gatherEntities_failed o users [] t
    rw [hg] at h1
    cases res with
    | error e => simpa [isErr] using h1
    | ok entityIds =>
        simp only
        simp only [isErr] at h1
        rw [Bool.or_false] at h1
        by_cases hv : (entityIds.foldl
            (fun acc p => acc ++ perms.map fun perm => PermRow.mk p.2 cid perm) []).isEmpty
        · simp [hv, isErr, h1]
        · simp only [hv, if_false, Bool.false_eq_true]
          have h2 := exec_failed true (insertPermRows (entityIds.foldl
            (fun acc p => acc ++ perms.map fun perm => PermRow.mk p.2 cid perm) [])) o t1
          rw [h1] at h2
          exact h2

theorem batch_insert_permissions_base (o : Nat → Bool) (cid : Nat)
    (users perms : List String) (t : Txn) :
    ((batch_insert_permissions o cid users perms t).2).base = t.base := by
  unfold batch_insert_permissions
  by_cases hu : users.isEmpty
  · simp [hu]
  · simp only [hu, if_false, Bool.false_eq_true]
    rcases hg : gatherEntities o users [] t with ⟨res, t1⟩
    have h1 := gatherEntities_base o users [] t
    rw [hg] at h1
    cases res with
    | error e => simpa using h1
    | ok entityIds =>
        simp only
        by_cases hv : (entityIds.foldl
            (fun acc p => acc ++ perms.map fun perm => PermRow.mk p.2 cid perm) []).isEmpty
        · simp only [hv, if_true]
          exact h1
        · simp only [hv, if_false, Bool.false_eq_true]
          rw [exec_base true (insertPermRows (entityIds.foldl
            (fun acc p => acc ++ perms.map fun perm => PermRow.mk p.2 cid perm) [])) o t1]
          exact h1

theorem get_connection_state_failed (o : Nat → Bool) (name : String) (t : Txn) :
    ((get_connection_state o name t).2).failed
      = (t.failed || isErr (get_connection_state o name t).1) := by
  unfold get_connection_state
  rcases h1 : exec false (fun db => (selectConnRow name db, db)) o t with ⟨res, t1⟩
  have hf1 := exec_failed false (fun db => (selectConnRow name db, db)) o t
  rw [h1] at hf1
  cases res with
  | error e => simpa [isErr] using hf1
  | ok rowOpt =>
      simp only [isErr] at hf1
      rw [Bool.or_false] at hf1
      cases rowOpt with
      | none => simpa [isErr] using hf1
      | some row =>
          simp only
          rcases h2 : exec false (fun db => (paramsOf row.connection_id db, db)) o t1
            with ⟨res2, t2⟩
          have hf2 := exec_failed false (fun db => (paramsOf row.connection_id db, db)) o t1
          rw [h2] at hf2
          cases res2 with
          | error e => simp only; simpa [isErr, hf1] using hf2
          | ok ps => simp only; simpa [isErr, hf1] using hf2

theorem get_connection_state_base (o : Nat → Bool) (name : String) (t : Txn) :
    ((get_connection_state o name t).2).base = t.base := by
  unfold get_connection_state
  rcases h1 : exec false (fun db => (selectConnRow name db, db)) o t with ⟨res, t1⟩
  have hb1 := exec_base false (fun db => (selectConnRow name db, db)) o t
  rw [h1] at hb1
  cases res with
  | error e => simpa using hb1
  | ok rowOpt =>
      cases rowOpt with
      | none => simpa using hb1
      | some row =>
          simp only
          rcases h2 : exec false (fun db => (paramsOf row.connection_id db, db)) o t1
            with ⟨res2, t2⟩
          have hb2 := exec_base false (fun db => (paramsOf row.connection_id db, db)) o t1
          rw [h2] at hb2
          cases res2 with
          | error e => simp only; rw [show t2.base = t1.base from hb2]; exact hb1
          | ok ps => simp only; rw [show t2.base = t1.base from hb2]; exact hb1

theorem applyWrites_failed (o : Nat → Bool) (d : ConnData) (cid : Nat) (t : Txn) :
    ((applyWrites o d cid t).2).failed = (t.failed || isErr (applyWrites o d cid t).1) := by
  unfold applyWrites
  have step1 :
      ∀ (res : Except DBErr Unit) (t1 : Txn), t1.failed = (t.failed || isErr res) →
        ((match (res, t1) with
          | (Except.error e, t1) => ((Except.error e : Except DBErr Nat), t1)
          | (Except.ok _, t1) =>
              match d.users with
              | none => (Except.ok cid, t1)
              | some us =>
                  match batch_insert_permissions o cid us (d.permissions.getD ["READ"]) t1 with
                  | (Except.error e, t2) => (Except.error e, t2)
                  | (Except.ok _, t2) => (Except.ok cid, t2)).2).failed
          = (t.failed ||
             isErr (match (res, t1) with
              | (Except.error e, t1) => ((Except.error e : Except DBErr Nat), t1)
              | (Except.ok _, t1) =>
                  match d.users with
                  | none => (Except.ok cid, t1)
                  | some us =>
                      match batch_insert_permissions o cid us (d.permissions.getD ["READ"]) t1 with
                      | (Except.error e, t2) => (Except.error e, t2)
                      | (Except.ok _, t2) => (Except.ok cid, t2)).1) := by
    intro res t1 h1
    cases res with
    | error e => simpa [isErr] using h1
    | ok a =>
        simp only [isErr] at h1
        rw [Bool.or_false] at h1
        cases d.users with
        | none => simpa [isErr] using h1
        | some us =>
            simp only
            rcases h2 : batch_insert_permissions o cid us (d.permissions.getD ["READ"]) t1
              with ⟨res2, t2⟩
            have hf2 := batch_insert_permissions_failed o cid us (d.permissions.getD ["READ"]) t1
            rw [h2] at hf2
            cases res2 with
            | error e => simp only; simpa [isErr, h1] using hf2
            | ok b => simp only; simpa [isErr, h1] using hf2
  cases hp : d.parameters with
  | none => exact step1 (Except.ok ()) t (by simp [isErr])
  | some ps =>
      simp only
      rcases hb : batch_insert_parameters o cid ps t with ⟨res, t1⟩
      have hf := batch_insert_parameters_failed o cid ps t
      rw [hb] at hf
      exact step1 res t1 hf

theorem applyWrites_base (o : Nat → Bool) (d : ConnData) (cid : Nat) (t : Txn) :
    ((applyWrites o d cid t).2).base = t.base := by
  unfold applyWrites
  have step1 :
      ∀ (res : Except DBErr Unit) (t1 : Txn), t1.base = t.base →
        ((match (res, t1) with
          | (Except.error e, t1) => ((Except.error e : Except DBErr Nat), t1)
          | (Except.ok _, t1) =>
              match d.users with
              | none => (Except.ok cid, t1)
              | some us =>
                  match batch_insert_permissions o cid us (d.permissions.getD ["READ"]) t1 with
                  | (Except.error e, t2) => (Except.error e, t2)
                  | (Except.ok _, t2) => (Except.ok cid, t2)).2).base = t.base := by
    intro res t1 h1
    cases res with
    | error e => simpa using h1
    | ok a =>
        cases d.users with
        | none => simpa using h1
        | some us =>
            simp only
            rcases h2 : batch_insert_permissions o cid us (d.permissions.getD ["READ"]) t1
              with ⟨res2, t2⟩
            have hb2 := batch_insert_permissions_base o cid us (d.permissions.getD ["READ"]) t1
            rw [h2] at hb2
            cases res2 with
            | error e => simp only; rw [show t2.base = t1.base from hb2]; exact h1
            | ok b => simp only; rw [show t2.base = t1.base from hb2]; exact h1
  cases hp : d.parameters with
  | none => exact step1 (Except.ok ()) t rfl
  | some ps =>
      simp only
      rcases hb : batch_insert_parameters o cid ps t with ⟨res, t1⟩
      have hf := batch_insert_parameters_base o cid ps t
      rw [hb] at hf
      exact step1 res t1 hf

theorem create_or_update_connection_failed (o : Nat → Bool) (d : ConnData) (t : Txn) :
    ((create_or_update_connection o d t).2).failed
      = (t.failed || isErr (create_or_update_connection o d t).1) := by
  unfold create_or_update_connection
  rcases h1 : exec false (fun db => (selectConnId d.name db, db)) o t with ⟨res, t1⟩
  have hf1 := exec_failed false (fun db => (selectConnId d.name db, db)) o t
  rw [h1] at hf1
  cases res with
  | error e => simpa [isErr] using hf1
  | ok cidOpt =>
      simp only [isErr] at hf1
      rw [Bool.or_false] at hf1
      cases cidOpt with
      | some cid =>
          simp only
          rcases h2 : get_connection_state o d.name t1 with ⟨res2, t2⟩
          have hf2 := get_connection_state_failed o d.name t1
          rw [h2] at hf2
          cases res2 with
          | error e => simp only; simpa [isErr, hf1] using hf2
          | ok stOpt =>
              simp only [isErr] at hf2
              rw [Bool.or_false, hf1] at hf2
              cases stOpt with
              | some st =>
                  simp only
                  by_cases hEq : pyDictEq st.parameters (d.parameters.getD [])
                  · simp [hEq, isErr, hf2]
                  · simp only [hEq, if_false, Bool.false_eq_true]
                    rw [applyWrites_failed o d cid t2, hf2]
              | none =>
                  simp only
                  rw [applyWrites_failed o d cid t2, hf2]
      | none =>
          simp only
          rcases h2 : exec true (insertConn d.name d.protocol) o t1 with ⟨res2, t2⟩
          have hf2 := exec_failed true (insertConn d.name d.protocol) o t1
          rw [h2] at hf2
          cases res2 with
          | error e => simp only; simpa [isErr, hf1] using hf2
          | ok cid =>
              simp only [isErr] at hf2
              rw [Bool.or_false, hf1] at hf2
              simp only
              rw [applyWrites_failed o d cid t2, hf2]

theorem create_or_update_connection_base (o : Nat → Bool) (d : ConnData) (t : Txn) :
    ((create_or_update_connection o d t).2).base = t.base := by
  unfold create_or_update_connection
  rcases h1 : exec false (fun db => (selectConnId d.name db, db)) o t with ⟨res, t1⟩
  have hb1 := exec_base false (fun db => (selectConnId d.name db, db)) o t
  rw [h1] at hb1
  cases res with
  | error e => simpa using hb1
  | ok cidOpt =>
      cases cidOpt with
      | some cid =>
          simp only
          rcases h2 : get_connection_state o d.name t1 with ⟨res2, t2⟩
          have hb2 := get_connection_state_base o d.name t1
          rw [h2] at hb2
          rw [show t1.base = t.base from hb1] at hb2
          cases res2 with
          | error e => simpa using hb2
          | ok stOpt =>
              cases stOpt with
              | some st =>
                  simp only
                  by_cases hEq : pyDictEq st.parameters (d.parameters.getD [])
                  · simpa [hEq] using hb2
                  · simp only [hEq, if_false, Bool.false_eq_true]
                    rw [applyWrites_base o d cid t2]
                    exact hb2
              | none =>
                  simp only
                  rw [applyWrites_base o d cid t2]
                  exact hb2
      | none =>
          simp only
          rcases h2 : exec true (insertConn d.name d.protocol) o t1 with ⟨res2, t2⟩
          have hb2 := exec_base true (insertConn d.name d.protocol) o t1
          rw [h2] at hb2
          rw [show t1.base = t.base from hb1] at hb2
          cases res2 with
          | error e => simpa using hb2
          | ok cid =>
              simp only
              rw [applyWrites_base o d cid t2]
              exact hb2

theorem runDefs_base (o : Nat → Bool) (defs : List ConnData) (t : Txn) (c e : Nat) :
    ((runDefs o defs t c e).2.2).base = t.base := by
  induction defs generalizing t c e with
  | nil => rfl
  | cons d rest ih =>
      unfold runDefs
      rcases hc : create_or_update_connection o d t with ⟨res, t1⟩
      have hb := create_or_update_connection_base o d t
      rw [hc] at hb
      cases res with
      | ok a => simp only; rw [ih, hb]
      | error e2 => simp only; rw [ih, hb]

theorem runDefs_errs_failed (o : Nat → Bool) (defs : List ConnData) (t : Txn) (c e : Nat)
    (hinv : e > 0 → t.failed = true) (h : (runDefs o defs t c e).2.1 > 0) :
    ((runDefs o defs t c e).2.2).failed = true := by
  induction defs generalizing t c e with
  | nil => exact hinv h
  | cons d rest ih =>
      unfold runDefs at h ⊢
      rcases hc : create_or_update_connection o d t with ⟨res, t1⟩
      rw [hc] at h
      have hf := create_or_update_connection_failed o d t
      rw [hc] at hf
      cases res with
      | ok a =>
          simp only at h ⊢
          refine ih t1 (c + 1) e ?_ h
          intro he
          rw [hf]
          simp [isErr, hinv he]
      | error e2 =>
          simp only at h ⊢
          refine ih t1 c (e + 1) ?_ h
          intro _
          rw [hf]
          simp [isErr]

/-- C1: if any per-definition step (the name lookup, the connection insert,
the parameter replace or the permission grant) raises a store error during
a cycle, the whole cycle's transaction is rolled back: the durable store
after process_connections equals the store before the cycle began, with no
write of any definition of that cycle — including those processed before
the failing one — observable.  (The failing statement aborts the
transaction, every later statement fails too, and the commit of the
aborted transaction rolls everything back.) -/
theorem c1_error_cycle_rolls_back_all_writes (H : String → String) (o : Nat → Bool)
    (af : Bool) (w : World) (herr : 0 < (process_connections H o af w).errors) :
    (process_connections H o af w).db = w.db := by
  unfold process_connections at herr ⊢
  by_cases h1 : w.files.isEmpty
  · simp [h1] at herr
  · simp only [h1, if_false, Bool.false_eq_true] at herr ⊢
    by_cases h2 : (w.files.foldl (detectStep H) (false, w.cache)).1
    · simp only [h2, Bool.not_true, if_false, Bool.false_eq_true] at herr ⊢
      by_cases h3 : (w.files.filterMap (·.parsed)).isEmpty
      · simp [h3] at herr
      · simp only [h3, if_false, Bool.false_eq_true] at herr ⊢
        cases af with
        | true => simp at herr
        | false =>
            simp only [Bool.false_eq_true, if_false] at herr ⊢
            have hfail := runDefs_errs_failed o (w.files.filterMap (·.parsed))
              ⟨w.db, w.db, false, 0, 0⟩ 0 0 (by intro h; exact absurd h (by simp)) herr
            have hbase := runDefs_base o (w.files.filterMap (·.parsed))
              ⟨w.db, w.db, false, 0, 0⟩ 0 0
            simp only [commitTxn, hfail, if_true]
            exact hbase
    · simp [h2] at herr

/-- C1 witness: a concrete three-statement cycle whose second statement
(the connection insert) fails leaves the store exactly as it was. -/
theorem c1_error_cycle_rolls_back_all_writes_witness :
    0 < (process_connections (fun s => s) (fun i => decide (i = 1)) false
      ⟨[⟨"p", some "c", some ⟨"n", "vnc", some [("a", PVal.s "x")], none, none⟩⟩], [],
       ⟨[], [], [], [], 1, 1⟩⟩).errors ∧
    (process_connections (fun s => s) (fun i => decide (i = 1)) false
      ⟨[⟨"p", some "c", some ⟨"n", "vnc", some [("a", PVal.s "x")], none, none⟩⟩], [],
       ⟨[], [], [], [], 1, 1⟩⟩).db = (⟨[], [], [], [], 1, 1⟩ : DB) :=
  ⟨by decide, c1_error_cycle_rolls_back_all_writes _ _ _ _ (by decide)⟩

theorem alookup_aset_self {α : Type} (k : String) (v : α) (l : List (String × α)) :
    alookup k (aset k v l) = some v := by
  induction l with
  | nil => simp [aset, alookup]
  | cons p rest ih =>
      rcases p with ⟨k2, w⟩
      by_cases hk : k = k2
      · simp [aset, hk, alookup]
      · simp [aset, hk, alookup, ih]

theorem alookup_aset_ne {α : Type} (k k2 : String) (v : α) (l : List (String × α))
    (hk : k ≠ k2) : alookup k (aset k2 v l) = alookup k l := by
  induction l with
  | nil => simp [aset, alookup, hk]
  | cons p rest ih =>
      rcases p with ⟨k3, w⟩
      by_cases h3 : k2 = k3
      · subst h3; simp [aset, alookup, hk]
      · by_cases h4 : k = k3 <;> simp [aset, alookup, h3, h4, ih]

theorem detect_preserve (H : String → String) (l : List SrcFile)
    (acc : Bool × List (String × String)) (p : String)
    (hp : p ∉ l.map SrcFile.path) :
    alookup p (l.foldl (detectStep H) acc).2 = alookup p acc.2 := by
  induction l generalizing acc with
  | nil => rfl
  | cons g rest ih =>
      simp only [List.map_cons, List.mem_cons] at hp
      push_neg at hp
      rw [List.foldl_cons, ih (detectStep H acc g) hp.2]
      unfold detectStep
      cases g.content with
      | none => rfl
      | some c =>
          by_cases h0 : H c = ""
          · simp [h0]
          · by_cases hl : alookup g.path acc.2 = some (H c)
            · simp [h0, hl]
            · simp [h0, hl, alookup_aset_ne p g.path (H c) acc.2 hp.1]

theorem detect_complete (H : String → String) (l : List SrcFile) :
    ∀ (acc : Bool × List (String × String)), (l.map SrcFile.path).Nodup →
      ∀ f ∈ l, ∀ c, f.content = some c → H c ≠ "" →
        alookup f.path (l.foldl (detectStep H) acc).2 = some (H c) := by
  induction l with
  | nil => intro acc _ f hf; cases hf
  | cons g rest ih =>
      intro acc hnd f hf c hc h0
      simp only [List.map_cons, List.nodup_cons] at hnd
      rw [List.foldl_cons]
      rcases List.mem_cons.mp hf with hfg | hfr
      · subst hfg
        rw [detect_preserve H rest (detectStep H acc f) f.path hnd.1]
        unfold detectStep
        rw [hc]
        simp only [h0, if_false]
        by_cases hl : alookup f.path acc.2 = some (H c)
        · simp [h0, hl]
        · simp [h0, hl, alookup_aset_self]
      · exact ih (detectStep H acc g) hnd.2 f hfr c hc h0

theorem detect_nochange (H : String → String) (l : List SrcFile) (flag : Bool)
    (cache : List (String × String))
    (hq : ∀ f ∈ l, ∀ c, f.content = some c → H c ≠ "" →
      alookup f.path cache = some (H c)) :
    l.foldl (detectStep H) (flag, cache) = (flag, cache) := by
  induction l with
  | nil => rfl
  | cons g rest ih =>
      rw [List.foldl_cons]
      have hstep : detectStep H (flag, cache) g = (flag, cache) := by
        unfold detectStep
        cases hgc : g.content with
        | none => rfl
        | some c =>
            by_cases h0 : H c = ""
            · simp [h0]
            · simp [h0, hq g (List.mem_cons_self g rest) c hgc h0]
      rw [hstep]
      exact ih fun f hf => hq f (List.mem_cons_of_mem g hf)

/-- C4: when every current definition-source file hashes to exactly its
cached fingerprint (and so no path is new), the cycle returns before the
store is touched: no session is requested, no statement — read or write —
is executed, and the store and cache are left untouched. -/
theorem c4_no_change_means_no_store_ops (H : String → String) (o : Nat → Bool)
    (af : Bool) (w : World)
    (hq : ∀ f ∈ w.files, ∃ c, f.content = some c ∧ alookup f.path w.cache = some (H c)) :
    process_connections H o af w = ⟨0, w.cache, w.db, false, 0, 0, 0⟩ := by
  unfold process_connections
  by_cases h1 : w.files.isEmpty
  · simp [h1]
  · have hdet : w.files.foldl (detectStep H) (false, w.cache) = (false, w.cache) := by
      refine detect_nochange H w.files false w.cache ?_
      intro f hf c hc h0
      rcases hq f hf with ⟨c2, hc2, hl2⟩
      rw [hc] at hc2
      cases hc2
      exact hl2
    rw [hdet]
    simp [h1]

/-- C4 witness: a single cached, unchanged file leads to an untouched
store even with a hostile statement oracle and a failing pool. -/
theorem c4_no_change_means_no_store_ops_witness :
    process_connections (fun s => s) (fun _ => true) true
      ⟨[⟨"p", some "body", none⟩], [("p", "body")], ⟨[], [], [], [], 1, 1⟩⟩
      = ⟨0, [("p", "body")], ⟨[], [], [], [], 1, 1⟩, false, 0, 0, 0⟩ := by
  refine c4_no_change_means_no_store_ops _ _ _ _ ?_
  intro f hf
  simp only [List.mem_singleton] at hf
  subst hf
  exact ⟨"body", rfl, rfl⟩

theorem process_cache_eq (H : String → String) (o : Nat → Bool) (af : Bool) (w : World)
    (h1 : ¬w.files.isEmpty = true) :
    (process_connections H o af w).cache
      = (w.files.foldl (detectStep H) (false, w.cache)).2 := by
  unfold process_connections
  simp only [h1, Bool.false_eq_true, if_false]
  split_ifs <;> rfl

theorem process_cache_complete (H : String → String) (o : Nat → Bool) (af : Bool)
    (w : World) (hnd : (w.files.map SrcFile.path).Nodup) :
    ∀ f ∈ w.files, ∀ c, f.content = some c → H c ≠ "" →
      alookup f.path (process_connections H o af w).cache = some (H c) := by
  intro f hf c hc h0
  by_cases h1 : w.files.isEmpty
  · rw [List.isEmpty_iff.mp h1] at hf
    cases hf
  · rw [process_cache_eq H o af w h1]
    exact detect_complete H w.files (false, w.cache) hnd f hf c hc h0

/-- C5: with the definition-source files unchanged between two consecutive
cycles (and the globbed paths distinct, as glob yields them), the second
cycle detects no change: it performs zero store statements, requests no
session, and leaves the durable store exactly as the first cycle left it. -/
theorem c5_second_cycle_is_a_no_op (H : String → String) (o1 o2 : Nat → Bool)
    (a1 a2 : Bool) (w : World) (hnd : (w.files.map SrcFile.path).Nodup) :
    process_connections H o2 a2
      ⟨w.files, (process_connections H o1 a1 w).cache, (process_connections H o1 a1 w).db⟩
      = ⟨0, (process_connections H o1 a1 w).cache, (process_connections H o1 a1 w).db,
         false, 0, 0, 0⟩ := by
  have hcc := process_cache_complete H o1 a1 w hnd
  generalize (process_connections H o1 a1 w).cache = K at hcc ⊢
  generalize (process_connections H o1 a1 w).db = D
  unfold process_connections
  by_cases h1 : w.files.isEmpty
  · simp [h1]
  · have hdet : w.files.foldl (detectStep H) (false, K) = (false, K) :=
      detect_nochange H w.files false K hcc
    simp only [h1, Bool.false_eq_true, if_false]
    rw [hdet]
    simp

/-- C5 witness: a world whose single definition creates a connection on the
first cycle; the second cycle, run on the resulting cache and store, is the
stated no-op. -/
theorem c5_second_cycle_is_a_no_op_witness :
    process_connections (fun s => s) (fun _ => false) false
      ⟨[⟨"p", some "x", some ⟨"n", "vnc", some [("a", PVal.s "1")], none, none⟩⟩],
       (process_connections (fun s => s) (fun _ => false) false
         ⟨[⟨"p", some "x", some ⟨"n", "vnc", some [("a", PVal.s "1")], none, none⟩⟩],
          [], ⟨[], [], [], [], 1, 1⟩⟩).cache,
       (process_connections (fun s => s) (fun _ => false) false
         ⟨[⟨"p", some "x", some ⟨"n", "vnc", some [("a", PVal.s "1")], none, none⟩⟩],
          [], ⟨[], [], [], [], 1, 1⟩⟩).db⟩
      = ⟨0,
         (process_connections (fun s => s) (fun _ => false) false
           ⟨[⟨"p", some "x", some ⟨"n", "vnc", some [("a", PVal.s "1")], none, none⟩⟩],
            [], ⟨[], [], [], [], 1, 1⟩⟩).cache,
         (process_connections (fun s => s) (fun _ => false) false
           ⟨[⟨"p", some "x", some ⟨"n", "vnc", some [("a", PVal.s "1")], none, none⟩⟩],
            [], ⟨[], [], [], [], 1, 1⟩⟩).db,
         false, 0, 0, 0⟩ :=
  c5_second_cycle_is_a_no_op (fun s => s) (fun _ => false) (fun _ => false) false false
    ⟨[⟨"p", some "x", some ⟨"n", "vnc", some [("a", PVal.s "1")], none, none⟩⟩],
     [], ⟨[], [], [], [], 1, 1⟩⟩ (by decide)

theorem wfgLoop_all_fail (attempt : Nat → Except String Unit) (fuel i : Nat)
    (hall : ∀ j, j < i + fuel → ∃ e, attempt j = Except.error e) (hfj : i ≤ i) :
    wfgLoop attempt fuel i = false := by
  induction fuel generalizing i with
  | zero => rfl
  | succ n ih =>
      unfold wfgLoop
      rcases hall i (by omega) with ⟨e, he⟩
      rw [he]
      exact ih (i + 1) (fun j hj => hall j (by omega)) le_rfl

/-- C7: when the secrets file is missing or lacks the postgresql-password
key (so get_db_password raises on every attempt), or when pool creation
fails on all 10 bounded startup retries, wait_for_guacamole exhausts its
retry budget and main exits with status 1 — a non-zero exit taken before
the initial provisioning and the main loop. -/
theorem c7_startup_failure_exits_nonzero (secrets : Option (List String))
    (poolOk : Nat → Bool)
    (hbad : (∃ e, get_db_password secrets = Except.error e) ∨
            (∀ i, i < 10 → poolOk i = false)) :
    main_startup secrets poolOk = some 1 := by
  have hall : ∀ j, j < 10 → ∃ e, init_connection_pool secrets (poolOk j) = Except.error e := by
    intro j hj
    rcases hbad with ⟨e, he⟩ | hpool
    · exact ⟨e, by unfold init_connection_pool; rw [he]⟩
    · unfold init_connection_pool
      cases hp : get_db_password secrets with
      | error e => exact ⟨e, rfl⟩
      | ok pw => exact ⟨"pool", by rw [hpool j hj]; rfl⟩
  unfold main_startup wait_for_guacamole
  rw [wfgLoop_all_fail (fun i => init_connection_pool secrets (poolOk i)) 10 0
    (by intro j hj; exact hall j (by omega)) le_rfl]
  rfl

/-- C7 witness: a secrets file that lacks the key, with a pool that would
accept, still exits 1; and so does a good secrets file whose pool fails
all ten attempts. -/
theorem c7_startup_failure_exits_nonzero_witness :
    main_startup (some ["guacd-hostname: guacd"]) (fun _ => true) = some 1 ∧
    main_startup (some ["postgresql-password: s3cret"]) (fun _ => false) = some 1 :=
  ⟨c7_startup_failure_exits_nonzero _ _
     (Or.inl ⟨"postgresql-password not found in guacamole.properties", by rfl⟩),
   c7_startup_failure_exits_nonzero _ _ (Or.inr fun i _ => rfl)⟩

theorem upsertEntity_parameters (u : String) (db : DB) :
    ((upsertEntity u db).2).parameters = db.parameters := by
  unfold upsertEntity
  cases db.entities.find? (fun e => e.name == u && e.type == "USER") <;> rfl

theorem upsertEntity_connections (u : String) (db : DB) :
    ((upsertEntity u db).2).connections = db.connections := by
  unfold upsertEntity
  cases db.entities.find? (fun e => e.name == u && e.type == "USER") <;> rfl

theorem exec_proj {γ α : Type} (g : DB → γ) (wr : Bool) (f : DB → α × DB)
    (o : Nat → Bool) (t : Txn) (hf : ∀ db, g (f db).2 = g db) :
    g ((exec wr f o t).2).cur = g t.cur := by
  rcases exec_cases wr f o t with ⟨_, he⟩ | ⟨_, _, he⟩ | ⟨_, _, he⟩ <;> rw [he]
  · exact hf t.cur

theorem gatherEntities_proj {γ : Type} (g : DB → γ)
    (hup : ∀ u db, g ((upsertEntity u db).2) = g db) (o : Nat → Bool)
    (users : List String) (acc : List (String × Nat)) (t : Txn) :
    g ((gatherEntities o users acc t).2).cur = g t.cur := by
  induction users generalizing acc t with
  | nil => rfl
  | cons u rest ih =>
      unfold gatherEntities
      rcases hg : get_or_create_entity o u t with ⟨res, t1⟩
      have h1 := exec_proj g true (upsertEntity u) o t (hup u)
      rw [show exec true (upsertEntity u) o t = (res, t1) from hg] at h1
      cases res with
      | error e => exact h1
      | ok eid => simp only; rw [ih, h1]

theorem batch_insert_permissions_proj {γ : Type} (g : DB → γ)
    (hup : ∀ u db, g ((upsertEntity u db).2) = g db)
    (hperm : ∀ rows db, g ((insertPermRows rows db).2) = g db) (o : Nat → Bool)
    (cid : Nat) (users perms : List String) (t : Txn) :
    g ((batch_insert_permissions o cid users perms t).2).cur = g t.cur := by
  unfold batch_insert_permissions
  by_cases hu : users.isEmpty
  · simp [hu]
  · simp only [hu, if_false, Bool.false_eq_true]
    rcases hg : gatherEntities o users [] t with ⟨res, t1⟩
    have h1 := gatherEntities_proj g hup o users [] t
    rw [hg] at h1
    cases res with
    | error e => exact h1
    | ok entityIds =>
        simp only
        by_cases hv : (entityIds.foldl
            (fun acc p => acc ++ perms.map fun perm => PermRow.mk p.2 cid perm) []).isEmpty
        · simp only [hv, if_true]
          exact h1
        · simp only [hv, if_false, Bool.false_eq_true]
          rw [exec_proj g true (insertPermRows (entityIds.foldl
            (fun acc p => acc ++ perms.map fun perm => PermRow.mk p.2 cid perm) []))
            o t1 (fun db => hperm _ db)]
          exact h1

theorem batch_insert_parameters_nil (o : Nat → Bool) (cid : Nat) (t : Txn) :
    batch_insert_parameters o cid [] t = (Except.ok (), t) := by
  unfold batch_insert_parameters
  rfl

theorem get_connection_state_cur (o : Nat → Bool) (name : String) (t : Txn) :
    ((get_connection_state o name t).2).cur = t.cur := by
  unfold get_connection_state
  rcases h1 : exec false (fun db => (selectConnRow name db, db)) o t with ⟨res, t1⟩
  have hc1 := exec_proj id false (fun db => (selectConnRow name db, db)) o t (fun db => rfl)
  rw [h1] at hc1
  cases res with
  | error e => exact hc1
  | ok rowOpt =>
      cases rowOpt with
      | none => exact hc1
      | some row =>
          simp only
          rcases h2 : exec false (fun db => (paramsOf row.connection_id db, db)) o t1
            with ⟨res2, t2⟩
          have hc2 := exec_proj id false (fun db => (paramsOf row.connection_id db, db)) o t1
            (fun db => rfl)
          rw [h2] at hc2
          cases res2 with
          | error e => simp only; rw [show t2.cur = t1.cur from hc2]; exact hc1
          | ok ps => simp only; rw [show t2.cur = t1.cur from hc2]; exact hc1

theorem applyWrites_noparams_proj {γ : Type} (g : DB → γ)
    (hup : ∀ u db, g ((upsertEntity u db).2) = g db)
    (hperm : ∀ rows db, g ((insertPermRows rows db).2) = g db) (o : Nat → Bool)
    (d : ConnData) (cid : Nat) (t : Txn)
    (hp : d.parameters = none ∨ d.parameters = some []) :
    g ((applyWrites o d cid t).2).cur = g t.cur := by
  unfold applyWrites
  have husers :
      ∀ t1 : Txn, g ((match d.users with
        | none => ((Except.ok cid : Except DBErr Nat), t1)
        | some us =>
            match batch_insert_permissions o cid us (d.permissions.getD ["READ"]) t1 with
            | (Except.error e, t2) => (Except.error e, t2)
            | (Except.ok _, t2) => (Except.ok cid, t2)).2).cur = g t1.cur := by
    intro t1
    cases d.users with
    | none => rfl
    | some us =>
        simp only
        rcases hb : batch_insert_permissions o cid us (d.permissions.getD ["READ"]) t1
          with ⟨res, t2⟩
        have h1 := batch_insert_permissions_proj g hup hperm o cid us
          (d.permissions.getD ["READ"]) t1
        rw [hb] at h1
        cases res with
        | error e => exact h1
        | ok a => exact h1
  rcases hp with hp | hp <;> rw [hp]
  · exact husers t
  · simp only [batch_insert_parameters_nil]
    exact husers t

/-- C2 counterexample: an existing connection holding one stored parameter
row, reconciled against a definition of the same name carrying no
`parameters` key, keeps that row: the cycle does not delete the existing
parameter rows, contradicting the claimed delete-all. -/
theorem c2_counterexample_missing_params_key_does_not_delete :
    (process_connections (fun s => s) (fun _ => false) false
      ⟨[⟨"p", some "y", some ⟨"n", "vnc", none, none, none⟩⟩], [],
       ⟨[], [⟨7, "n", "vnc"⟩], [⟨7, "host", "10.0.0.5"⟩], [], 1, 8⟩⟩).db.parameters
      = [⟨7, "host", "10.0.0.5"⟩] ∧
    paramsOf 7 (process_connections (fun s => s) (fun _ => false) false
      ⟨[⟨"p", some "y", some ⟨"n", "vnc", none, none, none⟩⟩], [],
       ⟨[], [⟨7, "n", "vnc"⟩], [⟨7, "host", "10.0.0.5"⟩], [], 1, 8⟩⟩).db ≠ [] := by
  constructor
  · decide
  · decide

/-- C2 amended: a Definition without a `parameters` key — or with an empty
parameters mapping — is compared as an empty dict (so a connection with
stored parameters takes the update path), but it triggers no parameter
write at all: the parameter block is skipped when the key is absent and
batch_insert_parameters returns before the delete when the mapping is
empty, so every existing parameter row is retained, not deleted. -/
theorem c2_amended_empty_params_leave_rows_untouched (o : Nat → Bool) (d : ConnData)
    (t : Txn) (hp : d.parameters = none ∨ d.parameters = some []) :
    ((create_or_update_connection o d t).2).cur.parameters = t.cur.parameters := by
  unfold create_or_update_connection
  rcases h1 : exec false (fun db => (selectConnId d.name db, db)) o t with ⟨res, t1⟩
  have hc1 := exec_proj DB.parameters false (fun db => (selectConnId d.name db, db)) o t
    (fun db => rfl)
  rw [h1] at hc1
  cases res with
  | error e => exact hc1
  | ok cidOpt =>
      cases cidOpt with
      | some cid =>
          simp only
          rcases h2 : get_connection_state o d.name t1 with ⟨res2, t2⟩
          have hc2 := get_connection_state_cur o d.name t1
          rw [h2] at hc2
          have hc2p : t2.cur.parameters = t.cur.parameters := by
            rw [show t2.cur = t1.cur from hc2]; exact hc1
          cases res2 with
          | error e => exact hc2p
          | ok stOpt =>
              cases stOpt with
              | some st =>
                  simp only
                  by_cases hEq : pyDictEq st.parameters (d.parameters.getD [])
                  · simp only [hEq, if_true]
                    exact hc2p
                  · simp only [hEq, if_false, Bool.false_eq_true]
                    rw [applyWrites_noparams_proj DB.parameters upsertEntity_parameters
                      (fun rows db => rfl) o d cid t2 hp]
                    exact hc2p
              | none =>
                  simp only
                  rw [applyWrites_noparams_proj DB.parameters upsertEntity_parameters
                    (fun rows db => rfl) o d cid t2 hp]
                  exact hc2p
      | none =>
          simp only
          rcases h2 : exec true (insertConn d.name d.protocol) o t1 with ⟨res2, t2⟩
          have hc2 := exec_proj DB.parameters true (insertConn d.name d.protocol) o t1
            (fun db => rfl)
          rw [h2] at hc2
          have hc2p : t2.cur.parameters = t.cur.parameters := by rw [hc2]; exact hc1
          cases res2 with
          | error e => exact hc2p
          | ok cid =>
              simp only
              rw [applyWrites_noparams_proj DB.parameters upsertEntity_parameters
                (fun rows db => rfl) o d cid t2 hp]
              exact hc2p

/-- C2 amended witness: the counterexample state run through the amended
statement — the stored row survives reconciliation. -/
theorem c2_amended_empty_params_leave_rows_untouched_witness :
    ((create_or_update_connection (fun _ => false) ⟨"n", "vnc", none, none, none⟩
      ⟨⟨[], [⟨7, "n", "vnc"⟩], [⟨7, "host", "10.0.0.5"⟩], [], 1, 8⟩,
       ⟨[], [⟨7, "n", "vnc"⟩], [⟨7, "host", "10.0.0.5"⟩], [], 1, 8⟩,
       false, 0, 0⟩).2).cur.parameters = [⟨7, "host", "10.0.0.5"⟩] :=
  c2_amended_empty_params_leave_rows_untouched (fun _ => false)
    ⟨"n", "vnc", none, none, none⟩ _ (Or.inl rfl)

theorem create_or_update_connection_of_failed (o : Nat → Bool) (d : ConnData) (t : Txn)
    (hf : t.failed = true) :
    create_or_update_connection o d t = (Except.error DBErr.inFailed, t) := by
  unfold create_or_update_connection
  rw [exec_eq_of_failed hf]

theorem runDefs_failed_all (o : Nat → Bool) (defs : List ConnData) (t : Txn) (c e : Nat)
    (hf : t.failed = true) : runDefs o defs t c e = (c, e + defs.length, t) := by
  induction defs generalizing e with
  | nil => rfl
  | cons d rest ih =>
      unfold runDefs
      rw [create_or_update_connection_of_failed o d t hf]
      simp only
      rw [ih (e + 1)]
      have harith : e + 1 + rest.length = e + (d :: rest).length := by
        simp only [List.length_cons]
        omega
      rw [harith]

theorem runDefs_decomp (o : Nat → Bool) (defs : List ConnData) :
    ∀ (t : Txn) (c : Nat), t.failed = false → 0 < (runDefs o defs t c 0).2.1 →
      ∃ pre d post, defs = pre ++ d :: post ∧
        (runDefs o defs t c 0).1 = c + pre.length ∧
        (runDefs o defs t c 0).2.1 = post.length + 1 := by
  induction defs with
  | nil => intro t c hf h; simp [runDefs] at h
  | cons d rest ih =>
      intro t c hf herr
      unfold runDefs at herr ⊢
      rcases hc : create_or_update_connection o d t with ⟨res, t1⟩
      rw [hc] at herr
      cases res with
      | ok a =>
          simp only at herr ⊢
          have hf1 : t1.failed = false := by
            have hcf := create_or_update_connection_failed o d t
            rw [hc] at hcf
            simpa [isErr, hf] using hcf
          rcases ih t1 (c + 1) hf1 herr with ⟨pre, d2, post, hsplit, hcount, herr2⟩
          refine ⟨d :: pre, d2, post, by rw [hsplit, List.cons_append], ?_, herr2⟩
          rw [hcount]
          simp only [List.length_cons]
          omega
      | error e2 =>
          simp only at herr ⊢
          have hf1 : t1.failed = true := by
            have hcf := create_or_update_connection_failed o d t
            rw [hc] at hcf
            simpa [isErr] using hcf
          rw [runDefs_failed_all o rest t1 c 1 hf1]
          exact ⟨[], d, rest, rfl, by simp, by simp [Nat.add_comm]⟩

/-- C3 counterexample: a two-definition cycle whose second definition hits
a store error (its connection insert fails) reports 1 processed
definition, not 0 — the first definition raised no exception and was
counted, even though the aborted transaction committed nothing. -/
theorem c3_counterexample_error_cycle_reports_nonzero :
    0 < (process_connections (fun s => s) (fun i => decide (i = 5)) false
      ⟨[⟨"p1", some "c1", some ⟨"n1", "vnc", some [("a", PVal.s "1")], none, none⟩⟩,
        ⟨"p2", some "c2", some ⟨"n2", "vnc", some [("b", PVal.s "2")], none, none⟩⟩],
       [], ⟨[], [], [], [], 1, 1⟩⟩).errors ∧
    (process_connections (fun s => s) (fun i => decide (i = 5)) false
      ⟨[⟨"p1", some "c1", some ⟨"n1", "vnc", some [("a", PVal.s "1")], none, none⟩⟩,
        ⟨"p2", some "c2", some ⟨"n2", "vnc", some [("b", PVal.s "2")], none, none⟩⟩],
       [], ⟨[], [], [], [], 1, 1⟩⟩).count = 1 := by
  constructor
  · decide
  · decide

/-- C3 amended: a cycle hitting any definition-level store error still
commits nothing (the aborted transaction rolls back), but the count it
reports is the number of definitions processed before the first failing
one — every definition after the failure raises on the aborted transaction
and is not counted — so the reported count can be non-zero. -/
theorem c3_amended_error_cycle_reports_prefix_count (H : String → String)
    (o : Nat → Bool) (af : Bool) (w : World)
    (herr : 0 < (process_connections H o af w).errors) :
    (process_connections H o af w).db = w.db ∧
    ∃ pre d post, w.files.filterMap (·.parsed) = pre ++ d :: post ∧
      (process_connections H o af w).count = pre.length ∧
      (process_connections H o af w).errors = post.length + 1 := by
  unfold process_connections at herr ⊢
  by_cases h1 : w.files.isEmpty
  · simp [h1] at herr
  · simp only [h1, if_false, Bool.false_eq_true] at herr ⊢
    by_cases h2 : (w.files.foldl (detectStep H) (false, w.cache)).1
    · simp only [h2, Bool.not_true, if_false, Bool.false_eq_true] at herr ⊢
      by_cases h3 : (w.files.filterMap (·.parsed)).isEmpty
      · simp [h3] at herr
      · simp only [h3, if_false, Bool.false_eq_true] at herr ⊢
        cases af with
        | true => simp at herr
        | false =>
            simp only [Bool.false_eq_true, if_false] at herr ⊢
            constructor
            · have hfail := runDefs_errs_failed o (w.files.filterMap (·.parsed))
                ⟨w.db, w.db, false, 0, 0⟩ 0 0 (by intro h; exact absurd h (by simp)) herr
              have hbase := runDefs_base o (w.files.filterMap (·.parsed))
                ⟨w.db, w.db, false, 0, 0⟩ 0 0
              simp only [commitTxn, hfail, if_true]
              exact hbase
            · rcases runDefs_decomp o (w.files.filterMap (·.parsed))
                ⟨w.db, w.db, false, 0, 0⟩ 0 rfl herr with ⟨pre, d2, post, hsplit, hcount, he⟩
              refine ⟨pre, d2, post, hsplit, ?_, he⟩
              rw [hcount]
              omega
    · simp [h2] at herr

/-- C3 amended witness: on the two-definition counterexample cycle the
error count is positive, the store is left untouched and the reported
count is the length of the error-free prefix, 1. -/
theorem c3_amended_error_cycle_reports_prefix_count_witness :
    0 < (process_connections (fun s => s) (fun i => decide (i = 5)) false
      ⟨[⟨"p1", some "c1", some ⟨"n1", "vnc", some [("a", PVal.s "1")], none, none⟩⟩,
        ⟨"p2", some "c2", some ⟨"n2", "vnc", some [("b", PVal.s "2")], none, none⟩⟩],
       [], ⟨[], [], [], [], 1, 1⟩⟩).errors ∧
    (process_connections (fun s => s) (fun i => decide (i = 5)) false
      ⟨[⟨"p1", some "c1", some ⟨"n1", "vnc", some [("a", PVal.s "1")], none, none⟩⟩,
        ⟨"p2", some "c2", some ⟨"n2", "vnc", some [("b", PVal.s "2")], none, none⟩⟩],
       [], ⟨[], [], [], [], 1, 1⟩⟩).db = (⟨[], [], [], [], 1, 1⟩ : DB) :=
  ⟨by decide,
   (c3_amended_error_cycle_reports_prefix_count (fun s => s) (fun i => decide (i = 5))
     false _ (by decide)).1⟩

theorem batch_insert_parameters_proj {γ : Type} (g : DB → γ)
    (hdel : ∀ c2 db, g ((deleteParams c2 db).2) = g db)
    (hinsp : ∀ rows db, g ((insertParamRows rows db).2) = g db) (o : Nat → Bool)
    (cid : Nat) (ps : List (String × PVal)) (t : Txn) :
    g ((batch_insert_parameters o cid ps t).2).cur = g t.cur := by
  unfold batch_insert_parameters
  by_cases hps : ps.isEmpty
  · simp [hps]
  · simp only [hps, if_false, Bool.false_eq_true]
    rcases hd : exec true (deleteParams cid) o t with ⟨res, t1⟩
    have h1 := exec_proj g true (deleteParams cid) o t (hdel cid)
    rw [hd] at h1
    cases res with
    | error e => exact h1
    | ok a =>
        simp only
        rw [exec_proj g true (insertParamRows (ps.map fun p => ParamRow.mk cid p.1 p.2.pyStr))
          o t1 (fun db => hinsp _ db)]
        exact h1

theorem applyWrites_proj {γ : Type} (g : DB → γ)
    (hdel : ∀ c2 db, g ((deleteParams c2 db).2) = g db)
    (hinsp : ∀ rows db, g ((insertParamRows rows db).2) = g db)
    (hup : ∀ u db, g ((upsertEntity u db).2) = g db)
    (hperm : ∀ rows db, g ((insertPermRows rows db).2) = g db) (o : Nat → Bool)
    (d : ConnData) (cid : Nat) (t : Txn) :
    g ((applyWrites o d cid t).2).cur = g t.cur := by
  unfold applyWrites
  have husers :
      ∀ t1 : Txn, g ((match d.users with
        | none => ((Except.ok cid : Except DBErr Nat), t1)
        | some us =>
            match batch_insert_permissions o cid us (d.permissions.getD ["READ"]) t1 with
            | (Except.error e, t2) => (Except.error e, t2)
            | (Except.ok _, t2) => (Except.ok cid, t2)).2).cur = g t1.cur := by
    intro t1
    cases d.users with
    | none => rfl
    | some us =>
        simp only
        rcases hb : batch_insert_permissions o cid us (d.permissions.getD ["READ"]) t1
          with ⟨res, t2⟩
        have h1 := batch_insert_permissions_proj g hup hperm o cid us
          (d.permissions.getD ["READ"]) t1
        rw [hb] at h1
        cases res with
        | error e => exact h1
        | ok a => exact h1
  cases hp : d.parameters with
  | none => exact husers t
  | some ps =>
      simp only
      rcases hb : batch_insert_parameters o cid ps t with ⟨res, t1⟩
      have h1 := batch_insert_parameters_proj g hdel hinsp o cid ps t
      rw [hb] at h1
      cases res with
      | error e => exact h1
      | ok a => rw [husers t1]; exact h1

theorem get_connection_state_writes (o : Nat → Bool) (name : String) (t : Txn) :
    ((get_connection_state o name t).2).writes = t.writes := by
  unfold get_connection_state
  have hw : ∀ (α : Type) (f : DB → α) (t3 : Txn),
      ((exec false (fun db => (f db, db)) o t3).2).writes = t3.writes := by
    intro α f t3
    rcases exec_cases false (fun db => (f db, db)) o t3 with ⟨_, he⟩ | ⟨_, _, he⟩ | ⟨_, _, he⟩ <;>
      rw [he] <;> simp
  rcases h1 : exec false (fun db => (selectConnRow name db, db)) o t with ⟨res, t1⟩
  have hw1 := hw (Option ConnRow) (selectConnRow name) t
  rw [h1] at hw1
  cases res with
  | error e => exact hw1
  | ok rowOpt =>
      cases rowOpt with
      | none => exact hw1
      | some row =>
          simp only
          rcases h2 : exec false (fun db => (paramsOf row.connection_id db, db)) o t1
            with ⟨res2, t2⟩
          have hw2 := hw (List (String × String)) (paramsOf row.connection_id) t1
          rw [h2] at hw2
          cases res2 with
          | error e => simp only; rw [show t2.writes = t1.writes from hw2]; exact hw1
          | ok ps => simp only; rw [show t2.writes = t1.writes from hw2]; exact hw1

theorem selectConnId_row (n : String) (db : DB) (cid : Nat)
    (hex : selectConnId n db = some cid) :
    ∃ row, selectConnRow n db = some row ∧ row.connection_id = cid := by
  unfold selectConnId at hex
  unfold selectConnRow
  rcases hfind : db.connections.find? (fun r => r.connection_name == n) with _ | row
  · rw [hfind] at hex; cases hex
  · rw [hfind] at hex
    exact ⟨row, hfind, Option.some.inj hex⟩

theorem couc_skip_eq (o : Nat → Bool) (d : ConnData) (t : Txn) (cid : Nat) (row : ConnRow)
    (ho : ∀ n, o n = false) (hnf : t.failed = false)
    (hrow : selectConnRow d.name t.cur = some row) (hcid : row.connection_id = cid)
    (hEq : pyDictEq (paramsOf cid t.cur) (d.parameters.getD []) = true) :
    create_or_update_connection o d t
      = (Except.ok cid, { t with opIdx := t.opIdx + 3 }) := by
  have hex : selectConnId d.name t.cur = some cid := by
    unfold selectConnId
    unfold selectConnRow at hrow
    rw [hrow]
    subst hcid
    rfl
  unfold create_or_update_connection get_connection_state
  simp only [exec, hnf, ho, Bool.false_eq_true, if_false, hex, hrow, hcid, hEq, if_true]
  simp [Nat.add_assoc]

/-- C9: a Definition whose name already has a connection row never touches
the connection table — the update path leaves every connection row (and so
the stored protocol) exactly as it was, whatever the oracle does; and when
its parameter dict equals the stored one (in particular when the
definition differs from the stored state only in protocol), the definition
is classified unchanged: the uncommitted state and the write counter are
untouched, only the three comparison reads run. -/
theorem c9_protocol_never_rewritten_for_existing (o : Nat → Bool) (d : ConnData)
    (t : Txn) (cid : Nat) (hex : selectConnId d.name t.cur = some cid) :
    ((create_or_update_connection o d t).2).cur.connections = t.cur.connections ∧
    ((∀ n, o n = false) → t.failed = false →
      pyDictEq (paramsOf cid t.cur) (d.parameters.getD []) = true →
      ((create_or_update_connection o d t).2).cur = t.cur ∧
      ((create_or_update_connection o d t).2).writes = t.writes) := by
  constructor
  · unfold create_or_update_connection
    rcases hx : exec false (fun db => (selectConnId d.name db, db)) o t with ⟨res, t1⟩
    have hcur1 : t1.cur = t.cur := by
      have h := exec_proj id false (fun db => (selectConnId d.name db, db)) o t (fun db => rfl)
      rw [hx] at h
      exact h
    cases res with
    | error e => simp only; rw [hcur1]
    | ok v =>
        have hv : v = some cid := by
          rcases exec_cases false (fun db => (selectConnId d.name db, db)) o t with
            ⟨hf, he⟩ | ⟨hf, ho2, he⟩ | ⟨hf, ho2, he⟩ <;> rw [he] at hx
          · simp at hx
          · simp at hx
          · simp only [Prod.mk.injEq] at hx
            rw [← hex]
            exact (Except.ok.inj hx.1).symm
        subst hv
        simp only
        rcases hg : get_connection_state o d.name t1 with ⟨res2, t2⟩
        have hc2 := get_connection_state_cur o d.name t1
        rw [hg] at hc2
        have hc2c : t2.cur.connections = t.cur.connections := by rw [hc2, hcur1]
        cases res2 with
        | error e => exact hc2c
        | ok stOpt =>
            cases stOpt with
            | none =>
                simp only
                rw [applyWrites_proj DB.connections (fun c2 db => rfl) (fun rows db => rfl)
                  upsertEntity_connections (fun rows db => rfl) o d cid t2]
                exact hc2c
            | some st =>
                simp only
                by_cases hEq2 : pyDictEq st.parameters (d.parameters.getD [])
                · simp only [hEq2, if_true]
                  exact hc2c
                · simp only [hEq2, if_false, Bool.false_eq_true]
                  rw [applyWrites_proj DB.connections (fun c2 db => rfl) (fun rows db => rfl)
                    upsertEntity_connections (fun rows db => rfl) o d cid t2]
                  exact hc2c
  · intro ho hnf hEq
    rcases selectConnId_row d.name t.cur cid hex with ⟨row, hrow, hcid⟩
    rw [couc_skip_eq o d t cid row ho hnf hrow hcid hEq]
    exact ⟨rfl, rfl⟩

/-- C9 witness: a definition that differs from the stored connection only
in protocol (stored vnc, definition rdp) with an equal parameter dict
leaves the connection table, the whole uncommitted state and the write
counter untouched. -/
theorem c9_protocol_never_rewritten_for_existing_witness :
    ((create_or_update_connection (fun _ => false)
        ⟨"n", "rdp", some [("a", PVal.s "1")], none, none⟩
        ⟨⟨[], [⟨7, "n", "vnc"⟩], [⟨7, "a", "1"⟩], [], 1, 8⟩,
         ⟨[], [⟨7, "n", "vnc"⟩], [⟨7, "a", "1"⟩], [], 1, 8⟩, false, 0, 0⟩).2).cur.connections
      = [⟨7, "n", "vnc"⟩] ∧
    ((create_or_update_connection (fun _ => false)
        ⟨"n", "rdp", some [("a", PVal.s "1")], none, none⟩
        ⟨⟨[], [⟨7, "n", "vnc"⟩], [⟨7, "a", "1"⟩], [], 1, 8⟩,
         ⟨[], [⟨7, "n", "vnc"⟩], [⟨7, "a", "1"⟩], [], 1, 8⟩, false, 0, 0⟩).2).cur
      = (⟨[], [⟨7, "n", "vnc"⟩], [⟨7, "a", "1"⟩], [], 1, 8⟩ : DB) ∧
    ((create_or_update_connection (fun _ => false)
        ⟨"n", "rdp", some [("a", PVal.s "1")], none, none⟩
        ⟨⟨[], [⟨7, "n", "vnc"⟩], [⟨7, "a", "1"⟩], [], 1, 8⟩,
         ⟨[], [⟨7, "n", "vnc"⟩], [⟨7, "a", "1"⟩], [], 1, 8⟩, false, 0, 0⟩).2).writes = 0 :=
  ⟨(c9_protocol_never_rewritten_for_existing _ _ _ 7 (by decide)).1,
   ((c9_protocol_never_rewritten_for_existing _ _ _ 7 (by decide)).2
     (fun _ => rfl) rfl (by decide)).1,
   ((c9_protocol_never_rewritten_for_existing _ _ _ 7 (by decide)).2
     (fun _ => rfl) rfl (by decide)).2⟩

theorem batch_insert_parameters_ok (o : Nat → Bool) (cid : Nat) (ps : List (String × PVal))
    (t : Txn) (ho : ∀ k, o k = false) (hnf : t.failed = false) (hne : ps ≠ []) :
    batch_insert_parameters o cid ps t
      = (Except.ok (),
         { t with
            cur := { t.cur with parameters :=
              ((t.cur.parameters.filter fun p => !(p.connection_id == cid))
                ++ ps.map (fun p => ParamRow.mk cid p.1 p.2.pyStr)) }
            opIdx := t.opIdx + 2, writes := t.writes + 2 }) := by
  have hps : ps.isEmpty = false := by
    cases ps with
    | nil => cases hne rfl
    | cons a l => rfl
  unfold batch_insert_parameters
  simp only [hps, Bool.false_eq_true, if_false, exec, hnf, ho, deleteParams, insertParamRows]
  simp [Nat.add_assoc]

theorem applyWrites_replace_users_none (o : Nat → Bool) (d : ConnData) (cid : Nat)
    (t : Txn) (ps : List (String × PVal)) (hps : d.parameters = some ps) (hne : ps ≠ [])
    (hu : d.users = none) (ho : ∀ k, o k = false) (hnf : t.failed = false) :
    applyWrites o d cid t
      = (Except.ok cid,
         { t with
            cur := { t.cur with parameters :=
              ((t.cur.parameters.filter fun p => !(p.connection_id == cid))
                ++ ps.map (fun p => ParamRow.mk cid p.1 p.2.pyStr)) }
            opIdx := t.opIdx + 2, writes := t.writes + 2 }) := by
  unfold applyWrites
  rw [hps, hu]
  simp only
  rw [batch_insert_parameters_ok o cid ps t ho hnf hne]

theorem couc_update_replace (o : Nat → Bool) (d : ConnData) (t : Txn) (cid : Nat)
    (row : ConnRow) (ps : List (String × PVal)) (ho : ∀ k, o k = false)
    (hnf : t.failed = false) (hrow : selectConnRow d.name t.cur = some row)
    (hcid : row.connection_id = cid)
    (hEq : pyDictEq (paramsOf cid t.cur) (d.parameters.getD []) = false)
    (hps : d.parameters = some ps) (hne : ps ≠ []) (hu : d.users = none) :
    create_or_update_connection o d t
      = (Except.ok cid,
         { t with
            cur := { t.cur with parameters :=
              ((t.cur.parameters.filter fun p => !(p.connection_id == cid))
                ++ ps.map (fun p => ParamRow.mk cid p.1 p.2.pyStr)) }
            opIdx := t.opIdx + 5, writes := t.writes + 2 }) := by
  have hex : selectConnId d.name t.cur = some cid := by
    unfold selectConnId
    unfold selectConnRow at hrow
    rw [hrow]
    subst hcid
    rfl
  unfold create_or_update_connection get_connection_state
  simp only [exec, hnf, ho, Bool.false_eq_true, if_false, hex, hrow, hcid, hEq]
  rw [applyWrites_replace_users_none o d cid _ ps hps hne hu ho rfl]
  simp [Nat.add_assoc]

theorem filter_not_filter_nil (cid : Nat) (P : List ParamRow) :
    ((P.filter fun p => !(p.connection_id == cid)).filter
      fun p => p.connection_id == cid) = [] := by
  induction P with
  | nil => rfl
  | cons p rest ih =>
      by_cases h : p.connection_id == cid
      · simp [List.filter_cons, h, ih]
      · simp [List.filter_cons, h, ih]

theorem process_changed_db (H : String → String) (o : Nat → Bool) (w : World)
    (h1 : ¬w.files.isEmpty = true)
    (hdet : (w.files.foldl (detectStep H) (false, w.cache)).1 = true)
    (hconns : ¬(w.files.filterMap (·.parsed)).isEmpty = true) :
    (process_connections H o false w).db
      = commitTxn (runDefs o (w.files.filterMap (·.parsed))
          ⟨w.db, w.db, false, 0, 0⟩ 0 0).2.2 := by
  unfold process_connections
  simp only [h1, Bool.false_eq_true, if_false, hdet, Bool.not_true, hconns]

/-- C6: an existing connection whose stored parameter set is exactly
a=1, b=2, reconciled in a successful cycle against a definition with
parameters a=1, c=3, ends with stored parameter set exactly a=1, c=3 for
that connection identifier: b is dropped, c is added, a keeps its value,
and no other parameter row exists for that identifier. -/
theorem c6_full_replace_parameter_set (H : String → String) (o : Nat → Bool) (w : World)
    (f : SrcFile) (c n proto : String) (cid : Nat)
    (hfiles : w.files = [f]) (hcont : f.content = some c) (h0 : H c ≠ "")
    (hcache : ¬alookup f.path w.cache = some (H c))
    (hparsed : f.parsed = some ⟨n, proto, some [("a", PVal.i 1), ("c", PVal.i 3)],
      none, none⟩)
    (ho : ∀ k, o k = false)
    (hex : selectConnId n w.db = some cid)
    (ha : ("a", "1") ∈ paramsOf cid w.db) (hb : ("b", "2") ∈ paramsOf cid w.db)
    (hsub : ∀ p ∈ paramsOf cid w.db, p = ("a", "1") ∨ p = ("b", "2")) :
    paramsOf cid (process_connections H o false w).db = [("a", "1"), ("c", "3")] := by
  have h1 : ¬w.files.isEmpty = true := by rw [hfiles]; simp
  have hstep : detectStep H (false, w.cache) f = (true, aset f.path (H c) w.cache) := by
    unfold detectStep
    rw [hcont]
    simp only [h0, if_false, hcache, if_neg hcache]
  have hdet : (w.files.foldl (detectStep H) (false, w.cache)).1 = true := by
    rw [hfiles]
    simp only [List.foldl_cons, List.foldl_nil, hstep]
  have hconnsEq : w.files.filterMap (·.parsed)
      = [⟨n, proto, some [("a", PVal.i 1), ("c", PVal.i 3)], none, none⟩] := by
    rw [hfiles]
    simp [List.filterMap_cons, hparsed]
  have hconns : ¬(w.files.filterMap (·.parsed)).isEmpty = true := by
    rw [hconnsEq]; simp
  rw [process_changed_db H o w h1 hdet hconns, hconnsEq]
  rcases selectConnId_row n w.db cid hex with ⟨row, hrow, hcid⟩
  have hEq : pyDictEq (paramsOf cid w.db) [("a", PVal.i 1), ("c", PVal.i 3)] = false := by
    by_contra hcontra
    have htrue : pyDictEq (paramsOf cid w.db) [("a", PVal.i 1), ("c", PVal.i 3)] = true := by
      cases h : pyDictEq (paramsOf cid w.db) [("a", PVal.i 1), ("c", PVal.i 3)] with
      | true => rfl
      | false => exact absurd h hcontra
    unfold pyDictEq at htrue
    rw [Bool.and_eq_true] at htrue
    have h1a := List.all_eq_true.mp htrue.1 ("a", "1") ha
    simp [alookup, pyValEqStr] at h1a
  unfold runDefs
  rw [couc_update_replace o
    ⟨n, proto, some [("a", PVal.i 1), ("c", PVal.i 3)], none, none⟩
    ⟨w.db, w.db, false, 0, 0⟩ cid row
    [("a", PVal.i 1), ("c", PVal.i 3)] ho rfl hrow hcid hEq rfl (by simp) rfl]
  simp only
  unfold runDefs commitTxn
  simp only
  unfold paramsOf
  simp only [Bool.false_eq_true, if_false, List.filter_append, filter_not_filter_nil,
    List.nil_append, beq_self_eq_true, List.filter_cons, List.filter_nil, if_true]
  simp [PVal.pyStr]
  exact ⟨rfl, rfl⟩

/-- C6 witness: the claim scenario on a concrete store — stored rows a=1
and b=2 for connection 7, a definition with a=1, c=3 — ends with exactly
a=1, c=3 stored. -/
theorem c6_full_replace_parameter_set_witness :
    paramsOf 7 (process_connections (fun s => s) (fun _ => false) false
      ⟨[⟨"p", some "y", some ⟨"n", "vnc", some [("a", PVal.i 1), ("c", PVal.i 3)],
          none, none⟩⟩], [],
       ⟨[], [⟨7, "n", "vnc"⟩], [⟨7, "a", "1"⟩, ⟨7, "b", "2"⟩], [], 1, 8⟩⟩).db
      = [("a", "1"), ("c", "3")] :=
  c6_full_replace_parameter_set (fun s => s) (fun _ => false) _ _ "y" "n" "vnc" 7
    rfl rfl (by decide) (by decide) rfl (fun _ => rfl) (by decide) (by decide) (by decide)
    (by decide)

theorem paramsOf_mapped_rows (cid : Nat) (ps : List (String × PVal)) :
    ((ps.map (fun p => ParamRow.mk cid p.1 p.2.pyStr)).filter
      (fun p => p.connection_id == cid)).map
        (fun p => (p.parameter_name, p.parameter_value))
      = ps.map (fun p => (p.1, p.2.pyStr)) := by
  induction ps with
  | nil => rfl
  | cons p rest ih => simp [List.map_cons, List.filter_cons, ih]

theorem couc_create_insert (o : Nat → Bool) (d : ConnData) (t : Txn)
    (ps : List (String × PVal)) (ho : ∀ k, o k = false) (hnf : t.failed = false)
    (hnone : selectConnId d.name t.cur = none) (hps : d.parameters = some ps)
    (hne : ps ≠ []) (hu : d.users = none) :
    create_or_update_connection o d t
      = (Except.ok t.cur.nextConnId,
         { t with
            cur := { t.cur with
              connections := t.cur.connections ++ [⟨t.cur.nextConnId, d.name, d.protocol⟩]
              parameters :=
                ((t.cur.parameters.filter fun p => !(p.connection_id == t.cur.nextConnId))
                  ++ ps.map (fun p => ParamRow.mk t.cur.nextConnId p.1 p.2.pyStr))
              nextConnId := t.cur.nextConnId + 1 }
            opIdx := t.opIdx + 4, writes := t.writes + 3 }) := by
  unfold create_or_update_connection
  simp only [exec, hnf, ho, Bool.false_eq_true, if_false, hnone, insertConn]
  rw [applyWrites_replace_users_none o d t.cur.nextConnId _ ps hps hne hu ho rfl]
  simp [Nat.add_assoc]

theorem upsertEntity_permissions (u : String) (db : DB) :
    ((upsertEntity u db).2).permissions = db.permissions := by
  unfold upsertEntity
  cases db.entities.find? (fun e => e.name == u && e.type == "USER") <;> rfl

theorem alookup_mem {α : Type} (k : String) (v : α) (l : List (String × α))
    (h : alookup k l = some v) : (k, v) ∈ l := by
  induction l with
  | nil => cases h
  | cons p rest ih =>
      rcases p with ⟨k2, w⟩
      unfold alookup at h
      by_cases hk : k = k2
      · rw [if_pos hk] at h
        subst hk
        cases h
        exact List.mem_cons_self _ _
      · rw [if_neg hk] at h
        exact List.mem_cons_of_mem _ (ih h)

theorem foldl_append_singleton {α β : Type} (g : α → β) (l : List α) :
    ∀ acc : List β, l.foldl (fun acc p => acc ++ [g p]) acc = acc ++ l.map g := by
  induction l with
  | nil => intro acc; simp
  | cons p rest ih => intro acc; simp [List.foldl_cons, ih, List.append_assoc]

theorem permFold_keeps {r : PermRow} (rows : List PermRow) :
    ∀ acc : List PermRow, r ∈ acc →
      r ∈ rows.foldl (fun acc2 q => if q ∈ acc2 then acc2 else acc2 ++ [q]) acc := by
  induction rows with
  | nil => intro acc h; exact h
  | cons q rest ih =>
      intro acc h
      rw [List.foldl_cons]
      by_cases hq : q ∈ acc
      · rw [if_pos hq]; exact ih acc h
      · rw [if_neg hq]; exact ih _ (List.mem_append_left _ h)

theorem permFold_adds {r : PermRow} (rows : List PermRow) :
    ∀ acc : List PermRow, r ∈ rows →
      r ∈ rows.foldl (fun acc2 q => if q ∈ acc2 then acc2 else acc2 ++ [q]) acc := by
  induction rows with
  | nil => intro acc h; cases h
  | cons q rest ih =>
      intro acc h
      rw [List.foldl_cons]
      rcases List.mem_cons.mp h with hrq | hmem
      · subst hrq
        by_cases hq : r ∈ acc
        · rw [if_pos hq]; exact permFold_keeps rest acc hq
        · rw [if_neg hq]
          exact permFold_keeps rest _ (List.mem_append_right _ (List.mem_singleton.mpr rfl))
      · by_cases hq : q ∈ acc
        · rw [if_pos hq]; exact ih acc hmem
        · rw [if_neg hq]; exact ih _ hmem

theorem permFold_from (rows : List PermRow) :
    ∀ (acc : List PermRow) (r : PermRow),
      r ∈ rows.foldl (fun acc2 q => if q ∈ acc2 then acc2 else acc2 ++ [q]) acc →
      r ∈ acc ∨ r ∈ rows := by
  induction rows with
  | nil => intro acc r h; exact Or.inl h
  | cons q rest ih =>
      intro acc r h
      rw [List.foldl_cons] at h
      by_cases hq : q ∈ acc
      · rw [if_pos hq] at h
        rcases ih acc r h with h2 | h2
        · exact Or.inl h2
        · exact Or.inr (List.mem_cons_of_mem _ h2)
      · rw [if_neg hq] at h
        rcases ih _ r h with h2 | h2
        · rcases List.mem_append.mp h2 with h3 | h3
          · exact Or.inl h3
          · exact Or.inr (List.mem_cons.mpr (Or.inl (List.mem_singleton.mp h3)))
        · exact Or.inr (List.mem_cons_of_mem _ h2)

theorem gatherEntities_spec (o : Nat → Bool) (ho : ∀ k, o k = false) :
    ∀ (users : List String) (acc : List (String × Nat)) (t : Txn),
      t.failed = false →
      (∀ e ∈ t.cur.entities, e.entity_id ≠ 0) →
      t.cur.nextEntityId ≠ 0 →
      ∃ l t2,
        gatherEntities o users acc t = (Except.ok l, t2) ∧
        t2.failed = false ∧ t2.base = t.base ∧
        t2.cur.connections = t.cur.connections ∧
        t2.cur.parameters = t.cur.parameters ∧
        t2.cur.permissions = t.cur.permissions ∧
        (∀ e ∈ t.cur.entities, e ∈ t2.cur.entities) ∧
        (∀ e ∈ t2.cur.entities, e.entity_id ≠ 0) ∧
        t2.cur.nextEntityId ≠ 0 ∧
        (∀ u : String,
          (u ∈ users ∨ ∃ e0, alookup u acc = some e0 ∧ e0 ≠ 0 ∧
            Entity.mk e0 u "USER" ∈ t.cur.entities) →
          ∃ e, alookup u l = some e ∧ e ≠ 0 ∧ Entity.mk e u "USER" ∈ t2.cur.entities) := by
  intro users
  induction users with
  | nil =>
      intro acc t hnf hwf1 hwf2
      refine ⟨acc, t, rfl, hnf, rfl, rfl, rfl, rfl, fun e he => he, hwf1, hwf2, ?_⟩
      intro u hu
      rcases hu with hu | ⟨e0, h1, h2, h3⟩
      · cases hu
      · exact ⟨e0, h1, h2, h3⟩
  | cons u0 rest ih =>
      intro acc t hnf hwf1 hwf2
      unfold gatherEntities get_or_create_entity
      rw [exec_eq_of_ok hnf (ho t.opIdx)]
      simp only
      rcases hfind : t.cur.entities.find? (fun e => e.name == u0 && e.type == "USER")
        with _ | e
      · -- no such entity: a fresh one is inserted with id nextEntityId
        have hup : upsertEntity u0 t.cur
            = (t.cur.nextEntityId,
               { t.cur with
                  entities := t.cur.entities ++ [⟨t.cur.nextEntityId, u0, "USER"⟩]
                  nextEntityId := t.cur.nextEntityId + 1 }) := by
          unfold upsertEntity
          rw [hfind]
        rw [hup]
        simp only
        rw [if_pos hwf2]
        obtain ⟨l, t2, hgg, hf2, hb2, hc2, hp2, hq2, hm2, hw1, hw2, hkey⟩ :=
          ih (aset u0 t.cur.nextEntityId acc)
            { t with
               cur := { t.cur with
                  entities := t.cur.entities ++ [⟨t.cur.nextEntityId, u0, "USER"⟩]
                  nextEntityId := t.cur.nextEntityId + 1 }
               opIdx := t.opIdx + 1, writes := t.writes + (if true then 1 else 0) }
            hnf
            (by
              intro e he
              rcases List.mem_append.mp he with h | h
              · exact hwf1 e h
              · rw [List.mem_singleton.mp h]
                exact hwf2)
            (Nat.succ_ne_zero _)
        refine ⟨l, t2, hgg, hf2, hb2, hc2, hp2, hq2,
          (fun e he => hm2 e (List.mem_append_left _ he)), hw1, hw2, ?_⟩
        intro u hu
        rcases hu with hu | ⟨e0, k1, k2, k3⟩
        · rcases List.mem_cons.mp hu with hu0 | hur
          · subst hu0
            refine hkey u (Or.inr ⟨t.cur.nextEntityId, alookup_aset_self u _ acc, hwf2, ?_⟩)
            exact List.mem_append_right _ (List.mem_singleton.mpr rfl)
          · exact hkey u (Or.inl hur)
        · by_cases hu0 : u = u0
          · subst hu0
            refine hkey u (Or.inr ⟨t.cur.nextEntityId, alookup_aset_self u _ acc, hwf2, ?_⟩)
            exact List.mem_append_right _ (List.mem_singleton.mpr rfl)
          · refine hkey u (Or.inr ⟨e0, ?_, k2, List.mem_append_left _ k3⟩)
            rw [alookup_aset_ne u u0 _ acc hu0]
            exact k1
      · -- existing entity: its id is returned and nothing is written
        obtain ⟨eid, en, et⟩ := e
        have hpred := List.find?_some hfind
        simp only [Bool.and_eq_true, beq_iff_eq] at hpred
        obtain ⟨h1, h2⟩ := hpred
        subst h2
        rw [h1] at hfind
        have hmemE : Entity.mk eid u0 "USER" ∈ t.cur.entities :=
          List.mem_of_find?_eq_some hfind
        have hup : upsertEntity u0 t.cur = (eid, t.cur) := by
          unfold upsertEntity
          rw [hfind]
        rw [hup]
        simp only
        have hee : eid ≠ 0 := hwf1 _ hmemE
        rw [if_pos hee]
        obtain ⟨l, t2, hgg, hf2, hb2, hc2, hp2, hq2, hm2, hw1, hw2, hkey⟩ :=
          ih (aset u0 eid acc)
            { t with cur := t.cur, opIdx := t.opIdx + 1,
                     writes := t.writes + (if true then 1 else 0) }
            hnf hwf1 hwf2
        refine ⟨l, t2, hgg, hf2, hb2, hc2, hp2, hq2, hm2, hw1, hw2, ?_⟩
        intro u hu
        rcases hu with hu | ⟨e0, k1, k2, k3⟩
        · rcases List.mem_cons.mp hu with hu0 | hur
          · subst hu0
            exact hkey u (Or.inr ⟨eid, alookup_aset_self u _ acc, hee, hmemE⟩)
          · exact hkey u (Or.inl hur)
        · by_cases hu0 : u = u0
          · subst hu0
            exact hkey u (Or.inr ⟨eid, alookup_aset_self u _ acc, hee, hmemE⟩)
          · refine hkey u (Or.inr ⟨e0, ?_, k2, k3⟩)
            rw [alookup_aset_ne u u0 _ acc hu0]
            exact k1

theorem batch_insert_permissions_spec (o : Nat → Bool) (ho : ∀ k, o k = false)
    (cid : Nat) (users : List String) (t : Txn) (hnf : t.failed = false)
    (hwf1 : ∀ e ∈ t.cur.entities, e.entity_id ≠ 0) (hwf2 : t.cur.nextEntityId ≠ 0) :
    ∃ t2, batch_insert_permissions o cid users ["READ"] t = (Except.ok (), t2) ∧
      t2.failed = false ∧ t2.base = t.base ∧
      t2.cur.connections = t.cur.connections ∧
      t2.cur.parameters = t.cur.parameters ∧
      (∀ r ∈ t2.cur.permissions, r ∈ t.cur.permissions ∨
        (r.connection_id = cid ∧ r.permission = "READ")) ∧
      (∀ u ∈ users, ∃ e, e ≠ 0 ∧ Entity.mk e u "USER" ∈ t2.cur.entities ∧
        PermRow.mk e cid "READ" ∈ t2.cur.permissions) := by
  unfold batch_insert_permissions
  by_cases hu : users.isEmpty
  · rw [if_pos hu]
    refine ⟨t, rfl, hnf, rfl, rfl, rfl, (fun r hr => Or.inl hr), ?_⟩
    intro u hmem
    rw [List.isEmpty_iff.mp hu] at hmem
    cases hmem
  · rw [if_neg hu]
    obtain ⟨l, t1, hgg, hf1, hb1, hc1, hp1, hq1, hm1, hw1, hw2, hkey⟩ :=
      gatherEntities_spec o ho users [] t hnf hwf1 hwf2
    rw [hgg]
    simp only
    have hval : l.foldl
        (fun acc p => acc ++ ["READ"].map (fun perm => PermRow.mk p.2 cid perm)) []
        = l.map (fun p => PermRow.mk p.2 cid "READ") :=
      foldl_append_singleton (fun p : String × Nat => PermRow.mk p.2 cid "READ") l []
    rw [hval]
    by_cases hle : (l.map (fun p => PermRow.mk p.2 cid "READ")).isEmpty
    · rw [if_pos hle]
      have hlnil : l = [] := by
        have := List.isEmpty_iff.mp hle
        exact List.map_eq_nil_iff.mp this
      rcases husers : users with _ | ⟨u0, us⟩
      · rw [husers] at hu
        exact absurd rfl hu
      · obtain ⟨e, hl, hne, hmem⟩ := hkey u0 (Or.inl (by rw [husers]; exact List.mem_cons_self _ _))
        rw [hlnil] at hl
        exact absurd hl (by simp [alookup])
    · rw [if_neg hle]
      rw [exec_eq_of_ok hf1 (ho t1.opIdx)]
      refine ⟨_, rfl, hf1, hb1, hc1, hp1, ?_, ?_⟩
      · intro r hr
        have hr2 : r ∈ (l.map (fun p => PermRow.mk p.2 cid "READ")).foldl
            (fun acc2 q => if q ∈ acc2 then acc2 else acc2 ++ [q]) t1.cur.permissions := hr
        rcases permFold_from (l.map (fun p => PermRow.mk p.2 cid "READ"))
          t1.cur.permissions r hr2 with h2 | h2
        · rw [hq1] at h2
          exact Or.inl h2
        · rcases List.mem_map.mp h2 with ⟨p, hp, hrp⟩
          rw [← hrp]
          exact Or.inr ⟨rfl, rfl⟩
      · intro u hu2
        obtain ⟨e, hl, hne, hmem⟩ := hkey u (Or.inl hu2)
        refine ⟨e, hne, hmem, ?_⟩
        have hrow : PermRow.mk e cid "READ"
            ∈ l.map (fun p => PermRow.mk p.2 cid "READ") :=
          List.mem_map.mpr ⟨(u, e), alookup_mem u e l hl, rfl⟩
        exact permFold_adds (l.map (fun p => PermRow.mk p.2 cid "READ"))
          t1.cur.permissions hrow

theorem batch_insert_parameters_ok_frame (o : Nat → Bool) (cid : Nat)
    (ps : List (String × PVal)) (t : Txn) (ho : ∀ k, o k = false)
    (hnf : t.failed = false) :
    ∃ t1, batch_insert_parameters o cid ps t = (Except.ok (), t1) ∧
      t1.failed = false ∧ t1.cur.entities = t.cur.entities ∧
      t1.cur.permissions = t.cur.permissions ∧
      t1.cur.nextEntityId = t.cur.nextEntityId := by
  by_cases hps : ps.isEmpty
  · have hnil : ps = [] := List.isEmpty_iff.mp hps
    subst hnil
    rw [batch_insert_parameters_nil]
    exact ⟨t, rfl, hnf, rfl, rfl, rfl⟩
  · have hne : ps ≠ [] := by
      intro h
      rw [h] at hps
      exact hps rfl
    rw [batch_insert_parameters_ok o cid ps t ho hnf hne]
    exact ⟨_, rfl, hnf, rfl, rfl, rfl⟩

theorem couc_update_to_applyWrites (o : Nat → Bool) (d : ConnData) (t : Txn) (cid : Nat)
    (row : ConnRow) (ho : ∀ k, o k = false) (hnf : t.failed = false)
    (hrow : selectConnRow d.name t.cur = some row) (hcid : row.connection_id = cid)
    (hEq : pyDictEq (paramsOf cid t.cur) (d.parameters.getD []) = false) :
    create_or_update_connection o d t
      = applyWrites o d cid { t with opIdx := t.opIdx + 3 } := by
  have hex : selectConnId d.name t.cur = some cid := by
    unfold selectConnId
    unfold selectConnRow at hrow
    rw [hrow]
    subst hcid
    rfl
  unfold create_or_update_connection get_connection_state
  simp only [exec, hnf, ho, Bool.false_eq_true, if_false, hex, hrow, hcid, hEq]
  simp [Nat.add_assoc]

theorem couc_create_to_applyWrites (o : Nat → Bool) (d : ConnData) (t : Txn)
    (ho : ∀ k, o k = false) (hnf : t.failed = false)
    (hnone : selectConnId d.name t.cur = none) :
    create_or_update_connection o d t
      = applyWrites o d t.cur.nextConnId
          { t with
             cur := { t.cur with
                connections := t.cur.connections ++ [⟨t.cur.nextConnId, d.name, d.protocol⟩]
                nextConnId := t.cur.nextConnId + 1 }
             opIdx := t.opIdx + 2, writes := t.writes + 1 } := by
  unfold create_or_update_connection
  simp only [exec, hnf, ho, Bool.false_eq_true, if_false, hnone, insertConn]
  simp [Nat.add_assoc]

theorem applyWrites_grants (o : Nat → Bool) (ho : ∀ k, o k = false) (d : ConnData)
    (cid : Nat) (t : Txn) (us : List String) (hnf : t.failed = false)
    (hu : d.users = some us) (hpm : d.permissions = none)
    (hwf1 : ∀ e ∈ t.cur.entities, e.entity_id ≠ 0) (hwf2 : t.cur.nextEntityId ≠ 0) :
    ∃ t2, applyWrites o d cid t = (Except.ok cid, t2) ∧
      (∀ r ∈ t2.cur.permissions, r ∈ t.cur.permissions ∨
        (r.connection_id = cid ∧ r.permission = "READ")) ∧
      (∀ u ∈ us, ∃ e, e ≠ 0 ∧ Entity.mk e u "USER" ∈ t2.cur.entities ∧
        PermRow.mk e cid "READ" ∈ t2.cur.permissions) := by
  unfold applyWrites
  have hparams : ∃ (t1 : Txn),
      (match d.parameters with
       | none => (Except.ok (), t)
       | some ps => batch_insert_parameters o cid ps t) = (Except.ok (), t1) ∧
      t1.failed = false ∧ t1.cur.entities = t.cur.entities ∧
      t1.cur.permissions = t.cur.permissions ∧
      t1.cur.nextEntityId = t.cur.nextEntityId := by
    cases hp : d.parameters with
    | none => exact ⟨t, rfl, hnf, rfl, rfl, rfl⟩
    | some ps =>
        obtain ⟨t1, he, hf, hent, hperm, hnx⟩ :=
          batch_insert_parameters_ok_frame o cid ps t ho hnf
        exact ⟨t1, he, hf, hent, hperm, hnx⟩
  obtain ⟨t1, hpeq, hf1, hent1, hperm1, hnx1⟩ := hparams
  rw [hpeq]
  simp only
  rw [hu]
  simp only [hpm, Option.getD_none]
  obtain ⟨t2, hg, hf2, hb2, hc2, hp2, hframe, hgrants⟩ :=
    batch_insert_permissions_spec o ho cid us t1 hf1
      (by rw [hent1]; exact hwf1) (by rw [hnx1]; exact hwf2)
  rw [hg]
  refine ⟨t2, rfl, ?_, hgrants⟩
  intro r hr
  rcases hframe r hr with h2 | h2
  · rw [hperm1] at h2
    exact Or.inl h2
  · exact Or.inr h2

/-- C8: a created or updated Definition that names `users` but has no
`permissions` key grants with the default permission set, exactly READ:
the cycle succeeds, every permission row it adds carries permission READ
on the new or updated connection, and each listed user ends with an
entity row and a READ grant on that connection. -/
theorem c8_users_without_permissions_get_read_only (o : Nat → Bool) (d : ConnData)
    (t : Txn) (us : List String) (ho : ∀ k, o k = false) (hnf : t.failed = false)
    (hwf1 : ∀ e ∈ t.cur.entities, e.entity_id ≠ 0) (hwf2 : t.cur.nextEntityId ≠ 0)
    (hu : d.users = some us) (hpm : d.permissions = none)
    (hpath : selectConnId d.name t.cur = none ∨
      ∃ cid0 row, selectConnRow d.name t.cur = some row ∧ row.connection_id = cid0 ∧
        pyDictEq (paramsOf cid0 t.cur) (d.parameters.getD []) = false) :
    ∃ cid t2, create_or_update_connection o d t = (Except.ok cid, t2) ∧
      (∀ r ∈ t2.cur.permissions, r ∈ t.cur.permissions ∨
        (r.connection_id = cid ∧ r.permission = "READ")) ∧
      (∀ u ∈ us, ∃ e, e ≠ 0 ∧ Entity.mk e u "USER" ∈ t2.cur.entities ∧
        PermRow.mk e cid "READ" ∈ t2.cur.permissions) := by
  rcases hpath with hnone | ⟨cid0, row, hrow, hcid, hEq⟩
  · rw [couc_create_to_applyWrites o d t ho hnf hnone]
    obtain ⟨t2, heq, hframe, hgrants⟩ := applyWrites_grants o ho d t.cur.nextConnId
      { t with
         cur := { t.cur with
            connections := t.cur.connections ++ [⟨t.cur.nextConnId, d.name, d.protocol⟩]
            nextConnId := t.cur.nextConnId + 1 }
         opIdx := t.opIdx + 2, writes := t.writes + 1 }
      us hnf hu hpm hwf1 hwf2
    exact ⟨t.cur.nextConnId, t2, heq, hframe, hgrants⟩
  · rw [couc_update_to_applyWrites o d t cid0 row ho hnf hrow hcid hEq]
    obtain ⟨t2, heq, hframe, hgrants⟩ := applyWrites_grants o ho d cid0
      { t with opIdx := t.opIdx + 3 } us hnf hu hpm hwf1 hwf2
    exact ⟨cid0, t2, heq, hframe, hgrants⟩

/-- C8 witness: creating a fresh connection for two listed users with no
permissions key ends in success with READ-only grants for both. -/
theorem c8_users_without_permissions_get_read_only_witness :
    ∃ cid t2, create_or_update_connection (fun _ => false)
        ⟨"n", "vnc", none, some ["alice", "bob"], none⟩
        ⟨⟨[], [], [], [], 1, 1⟩, ⟨[], [], [], [], 1, 1⟩, false, 0, 0⟩ = (Except.ok cid, t2) ∧
      (∀ r ∈ t2.cur.permissions,
        r ∈ (⟨[], [], [], [], 1, 1⟩ : DB).permissions ∨
        (r.connection_id = cid ∧ r.permission = "READ")) ∧
      (∀ u ∈ ["alice", "bob"], ∃ e, e ≠ 0 ∧ Entity.mk e u "USER" ∈ t2.cur.entities ∧
        PermRow.mk e cid "READ" ∈ t2.cur.permissions) :=
  c8_users_without_permissions_get_read_only (fun _ => false)
    ⟨"n", "vnc", none, some ["alice", "bob"], none⟩
    ⟨⟨[], [], [], [], 1, 1⟩, ⟨[], [], [], [], 1, 1⟩, false, 0, 0⟩
    ["alice", "bob"] (fun _ => rfl) rfl (by intro e he; cases he) (by decide)
    rfl rfl (Or.inl (by decide))

theorem gatherEntities_ok_frame (o : Nat → Bool) (ho : ∀ k, o k = false) :
    ∀ (users : List String) (acc : List (String × Nat)) (t : Txn), t.failed = false →
      ∃ l t2, gatherEntities o users acc t = (Except.ok l, t2) ∧ t2.failed = false ∧
        t2.cur.parameters = t.cur.parameters ∧ t.writes ≤ t2.writes := by
  intro users
  induction users with
  | nil => intro acc t hnf; exact ⟨acc, t, rfl, hnf, rfl, Nat.le_refl _⟩
  | cons u0 rest ih =>
      intro acc t hnf
      unfold gatherEntities get_or_create_entity
      rw [exec_eq_of_ok hnf (ho t.opIdx)]
      simp only
      obtain ⟨l, t2, hg, hf2, hp2, hw2⟩ :=
        ih (if (upsertEntity u0 t.cur).1 ≠ 0
              then aset u0 (upsertEntity u0 t.cur).1 acc else acc)
          { t with cur := (upsertEntity u0 t.cur).2, opIdx := t.opIdx + 1,
                   writes := t.writes + (if true then 1 else 0) } hnf
      refine ⟨l, t2, hg, hf2, ?_, ?_⟩
      · rw [hp2]
        exact upsertEntity_parameters u0 t.cur
      · exact Nat.le_trans (Nat.le_add_right _ _) hw2

theorem batch_insert_permissions_ok_frame (o : Nat → Bool) (ho : ∀ k, o k = false)
    (cid : Nat) (users perms : List String) (t : Txn) (hnf : t.failed = false) :
    ∃ t2, batch_insert_permissions o cid users perms t = (Except.ok (), t2) ∧
      t2.failed = false ∧ t2.cur.parameters = t.cur.parameters ∧
      t.writes ≤ t2.writes := by
  unfold batch_insert_permissions
  by_cases hu : users.isEmpty
  · rw [if_pos hu]
    exact ⟨t, rfl, hnf, rfl, Nat.le_refl _⟩
  · rw [if_neg hu]
    obtain ⟨l, t1, hg, hf1, hp1, hw1⟩ := gatherEntities_ok_frame o ho users [] t hnf
    rw [hg]
    simp only
    by_cases hv : (l.foldl
        (fun acc p => acc ++ perms.map fun perm => PermRow.mk p.2 cid perm) []).isEmpty
    · rw [if_pos hv]
      exact ⟨t1, rfl, hf1, hp1, hw1⟩
    · rw [if_neg hv]
      rw [exec_eq_of_ok hf1 (ho t1.opIdx)]
      refine ⟨_, rfl, hf1, hp1, Nat.le_trans hw1 (Nat.le_add_right _ _)⟩

theorem usersBlock_ok_frame (o : Nat → Bool) (ho : ∀ k, o k = false) (d : ConnData)
    (cid : Nat) (t1 : Txn) (hf1 : t1.failed = false) :
    ∃ t2, (match d.users with
      | none => ((Except.ok cid : Except DBErr Nat), t1)
      | some us =>
          match batch_insert_permissions o cid us (d.permissions.getD ["READ"]) t1 with
          | (Except.error e, t2) => (Except.error e, t2)
          | (Except.ok _, t2) => (Except.ok cid, t2)) = (Except.ok cid, t2) ∧
      t2.failed = false ∧ t2.cur.parameters = t1.cur.parameters ∧
      t1.writes ≤ t2.writes := by
  cases d.users with
  | none => exact ⟨t1, rfl, hf1, rfl, Nat.le_refl _⟩
  | some us =>
      simp only
      obtain ⟨t2, hg, hf2, hp2, hw2⟩ := batch_insert_permissions_ok_frame o ho cid us
        (d.permissions.getD ["READ"]) t1 hf1
      rw [hg]
      exact ⟨t2, rfl, hf2, hp2, hw2⟩

theorem applyWrites_replace_params (o : Nat → Bool) (d : ConnData) (cid : Nat)
    (t : Txn) (ps : List (String × PVal)) (ho : ∀ k, o k = false)
    (hnf : t.failed = false) (hps : d.parameters = some ps) (hne : ps ≠ []) :
    ∃ t2, applyWrites o d cid t = (Except.ok cid, t2) ∧
      t2.cur.parameters
        = ((t.cur.parameters.filter fun p => !(p.connection_id == cid))
            ++ ps.map (fun p => ParamRow.mk cid p.1 p.2.pyStr)) ∧
      t.writes + 2 ≤ t2.writes := by
  unfold applyWrites
  rw [hps]
  simp only
  rcases hb : batch_insert_parameters o cid ps t with ⟨res, t1⟩
  have hbo := batch_insert_parameters_ok o cid ps t ho hnf hne
  rw [hb] at hbo
  injection hbo with h1 h2
  subst h1
  have ht1f : t1.failed = false := by rw [h2]; exact hnf
  have ht1p : t1.cur.parameters
      = ((t.cur.parameters.filter fun p => !(p.connection_id == cid))
          ++ ps.map (fun p => ParamRow.mk cid p.1 p.2.pyStr)) := by rw [h2]
  have ht1w : t1.writes = t.writes + 2 := by rw [h2]
  simp only
  obtain ⟨t2, hblock, hf2, hp2, hw2⟩ := usersBlock_ok_frame o ho d cid t1 ht1f
  refine ⟨t2, hblock, ?_, ?_⟩
  · rw [hp2]
    exact ht1p
  · rw [← ht1w]
    exact hw2

/-- C10: parameter values are inserted through Python str() — after a
successful create or update with a non-empty parameter mapping the stored
rows for the connection are exactly the definition pairs with coerced
string values — while the unchanged-skip comparison uses the definition's
uncoerced values, so a definition whose values are the integer forms of
the stored strings is not classified unchanged and is rewritten (at least
the delete and insert write statements run). -/
theorem c10_str_coercion_and_uncoerced_compare :
    (∀ (o : Nat → Bool) (d : ConnData) (t : Txn) (cid : Nat) (row : ConnRow)
        (ps : List (String × PVal)),
      (∀ k, o k = false) → t.failed = false →
      selectConnRow d.name t.cur = some row → row.connection_id = cid →
      pyDictEq (paramsOf cid t.cur) (d.parameters.getD []) = false →
      d.parameters = some ps → ps ≠ [] →
      paramsOf cid ((create_or_update_connection o d t).2).cur
        = ps.map (fun p => (p.1, p.2.pyStr))) ∧
    (∀ (o : Nat → Bool) (d : ConnData) (t : Txn) (ps : List (String × PVal)),
      (∀ k, o k = false) → t.failed = false →
      selectConnId d.name t.cur = none →
      d.parameters = some ps → ps ≠ [] →
      paramsOf t.cur.nextConnId ((create_or_update_connection o d t).2).cur
        = ps.map (fun p => (p.1, p.2.pyStr))) ∧
    (∀ (o : Nat → Bool) (d : ConnData) (t : Txn) (cid : Nat) (row : ConnRow) (k : String),
      (∀ n, o n = false) → t.failed = false →
      selectConnRow d.name t.cur = some row → row.connection_id = cid →
      paramsOf cid t.cur = [(k, "1")] → d.parameters = some [(k, PVal.i 1)] →
      t.writes + 2 ≤ ((create_or_update_connection o d t).2).writes) := by
  refine ⟨?_, ?_, ?_⟩
  · intro o d t cid row ps ho hnf hrow hcid hEq hps hne
    rw [couc_update_to_applyWrites o d t cid row ho hnf hrow hcid hEq]
    obtain ⟨t2, heq, hpar, hw⟩ := applyWrites_replace_params o d cid
      { t with opIdx := t.opIdx + 3 } ps ho hnf hps hne
    rw [heq]
    simp only
    unfold paramsOf
    rw [hpar]
    simp only [List.filter_append, filter_not_filter_nil, List.nil_append]
    exact paramsOf_mapped_rows cid ps
  · intro o d t ps ho hnf hnone hps hne
    rw [couc_create_to_applyWrites o d t ho hnf hnone]
    obtain ⟨t2, heq, hpar, hw⟩ := applyWrites_replace_params o d t.cur.nextConnId
      { t with
         cur := { t.cur with
            connections := t.cur.connections ++ [⟨t.cur.nextConnId, d.name, d.protocol⟩]
            nextConnId := t.cur.nextConnId + 1 }
         opIdx := t.opIdx + 2, writes := t.writes + 1 } ps ho hnf hps hne
    rw [heq]
    simp only
    unfold paramsOf
    rw [hpar]
    simp only [List.filter_append, filter_not_filter_nil, List.nil_append]
    exact paramsOf_mapped_rows t.cur.nextConnId ps
  · intro o d t cid row k ho hnf hrow hcid hstored hps
    have hEqF : pyDictEq (paramsOf cid t.cur) (d.parameters.getD []) = false := by
      rw [hstored, hps]
      simp [pyDictEq, alookup, pyValEqStr]
    rw [couc_update_to_applyWrites o d t cid row ho hnf hrow hcid hEqF]
    obtain ⟨t2, heq, hpar, hw⟩ := applyWrites_replace_params o d cid
      { t with opIdx := t.opIdx + 3 } [(k, PVal.i 1)] ho hnf hps (by simp)
    rw [heq]
    exact hw

/-- C10 witness: a definition that also lists a user — with stored row a=1
(string) and definition value the integer 1, the comparison fails
(uncoerced) and the rewrite stores str(1); a fresh connection stores str()
images as well, and at least the two parameter write statements ran. -/
theorem c10_str_coercion_and_uncoerced_compare_witness :
    paramsOf 7 ((create_or_update_connection (fun _ => false)
        ⟨"n", "vnc", some [("a", PVal.i 1)], some ["alice"], none⟩
        ⟨⟨[], [⟨7, "n", "vnc"⟩], [⟨7, "a", "1"⟩], [], 1, 8⟩,
         ⟨[], [⟨7, "n", "vnc"⟩], [⟨7, "a", "1"⟩], [], 1, 8⟩, false, 0, 0⟩).2).cur
      = [("a", "1")] ∧
    paramsOf 1 ((create_or_update_connection (fun _ => false)
        ⟨"n", "vnc", some [("a", PVal.i 1)], some ["alice"], none⟩
        ⟨⟨[], [], [], [], 1, 1⟩, ⟨[], [], [], [], 1, 1⟩, false, 0, 0⟩).2).cur
      = [("a", "1")] ∧
    0 + 2 ≤ ((create_or_update_connection (fun _ => false)
        ⟨"n", "vnc", some [("a", PVal.i 1)], some ["alice"], none⟩
        ⟨⟨[], [⟨7, "n", "vnc"⟩], [⟨7, "a", "1"⟩], [], 1, 8⟩,
         ⟨[], [⟨7, "n", "vnc"⟩], [⟨7, "a", "1"⟩], [], 1, 8⟩, false, 0, 0⟩).2).writes :=
  ⟨c10_str_coercion_and_uncoerced_compare.1 (fun _ => false)
     ⟨"n", "vnc", some [("a", PVal.i 1)], some ["alice"], none⟩
     ⟨⟨[], [⟨7, "n", "vnc"⟩], [⟨7, "a", "1"⟩], [], 1, 8⟩,
      ⟨[], [⟨7, "n", "vnc"⟩], [⟨7, "a", "1"⟩], [], 1, 8⟩, false, 0, 0⟩
     7 ⟨7, "n", "vnc"⟩ [("a", PVal.i 1)]
     (fun _ => rfl) rfl (by decide) rfl (by decide) rfl (by decide),
   c10_str_coercion_and_uncoerced_compare.2.1 (fun _ => false)
     ⟨"n", "vnc", some [("a", PVal.i 1)], some ["alice"], none⟩
     ⟨⟨[], [], [], [], 1, 1⟩, ⟨[], [], [], [], 1, 1⟩, false, 0, 0⟩ [("a", PVal.i 1)]
     (fun _ => rfl) rfl (by decide) rfl (by decide),
   c10_str_coercion_and_uncoerced_compare.2.2 (fun _ => false)
     ⟨"n", "vnc", some [("a", PVal.i 1)], some ["alice"], none⟩
     ⟨⟨[], [⟨7, "n", "vnc"⟩], [⟨7, "a", "1"⟩], [], 1, 8⟩,
      ⟨[], [⟨7, "n", "vnc"⟩], [⟨7, "a", "1"⟩], [], 1, 8⟩, false, 0, 0⟩
     7 ⟨7, "n", "vnc"⟩ "a"
     (fun _ => rfl) rfl (by decide) rfl (by decide) rfl⟩
